import Mathlib

/-!
Shallow embedding of the sync + aggregation pipeline of the
github-activity-analysis repository (TypeScript/Next.js sources under
`src/`), together with proofs about the claims of its specification.

Modelling conventions:
* JavaScript `number` arithmetic is embedded over `ℚ` (exact rational
  arithmetic); `Math.round` is Mathlib's `round` on `ℚ`, which rounds
  half-up towards `+∞`, exactly as `Math.round` does.
* `Record<string, T>` objects and ES `Map`s are embedded as association
  lists (`AssocMap`) with JavaScript insertion-order semantics: updating
  an existing key keeps its position, a new key is appended.
* `Array.prototype.sort` (stable since ES2019) is embedded as Mathlib's
  `List.insertionSort`, which is a stable sort.
* Timestamps that carry calendar structure (`createdAt`, analysis window
  bounds) are embedded at day precision as `CalDate`; timestamps used
  purely for ordering/offsets (sync cutoffs, bookkeeping `updated_at`)
  are embedded as integer milliseconds.
-/

/-- `Math.round` on exact rationals, returned as a rational
(JavaScript numbers are untyped; the result is always an integer). -/
def jsRound (x : ℚ) : ℚ := ((round x : ℤ) : ℚ)

/-- Association-list embedding of a JavaScript object / `Map`.
Keys are strings; iteration order is insertion order. -/
abbrev AssocMap (β : Type) := List (String × β)

/-- `m.get(k)` / `obj[k]` — first (and only, keys are unique) binding. -/
def mget {β : Type} (m : AssocMap β) (k : String) : Option β :=
  (m.find? (fun kv => kv.1 = k)).map (fun kv => kv.2)

/-- `obj[k] || d` style read with a default. -/
def mgetD {β : Type} (m : AssocMap β) (k : String) (d : β) : β :=
  (mget m k).getD d

/-- `m.set(k, v)` / `obj[k] = v`: update in place if the key exists,
otherwise append at the end. -/
def mset {β : Type} (m : AssocMap β) (k : String) (v : β) : AssocMap β :=
  match m with
  | [] => [(k, v)]
  | (k', v') :: rest => if k' = k then (k', v) :: rest else (k', v') :: mset rest k v

/-- `Object.values(m)` / iterating a `Map`'s values in insertion order. -/
def mvalues {β : Type} (m : AssocMap β) : List β := m.map (fun kv => kv.2)

/-- `Object.fromEntries(entries)` and the `reduce`-into-a-fresh-object
idiom: later duplicate keys overwrite, first occurrence fixes position. -/
def objFromEntries {β : Type} (l : List (String × β)) : AssocMap β :=
  l.foldl (fun acc kv => mset acc kv.1 kv.2) []

/-- Lexicographic comparison of character lists by code point,
modelling `localeCompare`-based ascending string sorts on ASCII data. -/
def chLe : List Char → List Char → Bool
  | [], _ => true
  | _ :: _, [] => false
  | a :: as, b :: bs =>
    if a.val < b.val then true
    else if b.val < a.val then false
    else chLe as bs

/-- String comparison used by `sort((a, b) => a.localeCompare(b))`. -/
def strLe (a b : String) : Bool := chLe a.data b.data

/-- `s.startsWith(p)` on strings. -/
def jsStartsWith (s p : String) : Bool := p.data.isPrefixOf s.data

/-- `s.substring(0, n)` on strings. -/
def jsTake (s : String) (n : Nat) : String := ⟨s.data.take n⟩

/-- ASCII lower-casing of one character (`toLowerCase` on the ASCII
range, which covers every extension in the table). -/
def lowerChar (c : Char) : Char :=
  if 'A' ≤ c ∧ c ≤ 'Z' then Char.ofNat (c.toNat + 32) else c

/-- `s.split(sep)` (single-character separator), on character lists. -/
def splitOnChar (sep : Char) : List Char → List (List Char)
  | [] => [[]]
  | c :: cs =>
    let rec0 := splitOnChar sep cs
    if c = sep then [] :: rec0
    else
      match rec0 with
      | [] => [[c]]
      | part :: parts => (c :: part) :: parts

/-- JavaScript `s.toLowerCase()` on ASCII strings. -/
def jsToLower (s : String) : String := ⟨s.data.map lowerChar⟩

/-! ### Calendar dates

The sources use `date-fns` (`parseISO`, `format`, `differenceInDays`,
`eachDayOfInterval`, `eachWeekOfInterval`, `eachMonthOfInterval`).  We
embed dates at day precision: a proleptic-Gregorian civil date, with
conversions to and from a day number (days since 1970-01-01). -/

/-- A civil (proleptic Gregorian) calendar date. -/
structure CalDate where
  y : Int
  m : Int
  d : Int
deriving DecidableEq, Repr

/-- Day number (days since 1970-01-01) of a civil date
(standard civil-from-days algorithm). -/
def daysFromCivil (c : CalDate) : Int :=
  let y : Int := if c.m ≤ 2 then c.y - 1 else c.y
  let era : Int := (if 0 ≤ y then y else y - 399) / 400
  let yoe : Int := y - era * 400
  let doy : Int := (153 * (c.m + (if 2 < c.m then -3 else 9)) + 2) / 5 + c.d - 1
  let doe : Int := yoe * 365 + yoe / 4 - yoe / 100 + doy
  era * 146097 + doe - 719468

/-- Civil date of a day number (inverse of `daysFromCivil`). -/
def civilFromDays (z0 : Int) : CalDate :=
  let z : Int := z0 + 719468
  let era : Int := (if 0 ≤ z then z else z - 146096) / 146097
  let doe : Int := z - era * 146097
  let yoe : Int := (doe - doe / 1460 + doe / 36524 - doe / 146096) / 365
  let y : Int := yoe + era * 400
  let doy : Int := doe - (365 * yoe + yoe / 4 - yoe / 100)
  let mp : Int := (5 * doy + 2) / 153
  let d : Int := doy - (153 * mp + 2) / 5 + 1
  let m : Int := mp + (if mp < 10 then 3 else -9)
  ⟨(if m ≤ 2 then y + 1 else y), m, d⟩

/-- Zero-pad to two digits (`MM`, `dd` format tokens). -/
def pad2 (n : Int) : String :=
  if n < 10 then "0" ++ toString n else toString n

/-- Zero-pad to four digits (`yyyy` format token). -/
def pad4 (n : Int) : String :=
  if n < 10 then "000" ++ toString n
  else if n < 100 then "00" ++ toString n
  else if n < 1000 then "0" ++ toString n
  else toString n

/-- `format(date, 'yyyy-MM-dd')` of a day number. -/
def formatDay (z : Int) : String :=
  let c := civilFromDays z
  pad4 c.y ++ "-" ++ pad2 c.m ++ "-" ++ pad2 c.d

/-- `format(date, 'yyyy-MM')` of a day number. -/
def formatMonth (z : Int) : String :=
  let c := civilFromDays z
  pad4 c.y ++ "-" ++ pad2 c.m

/-- `differenceInDays(end, start)` at day precision. -/
def differenceInDays (e s : CalDate) : Int := daysFromCivil e - daysFromCivil s

/-- `eachDayOfInterval({start, end})` as day numbers. -/
def eachDayOfInterval (s e : CalDate) : List Int :=
  let a := daysFromCivil s
  let b := daysFromCivil e
  (List.range (b - a + 1).toNat).map (fun k => a + (k : Int))

/-- `getDay` (0 = Sunday … 6 = Saturday) of a day number;
1970-01-01 was a Thursday. -/
def dayOfWeek (z : Int) : Int := (z + 4).emod 7

/-- `startOfWeek` (weeks start on Sunday, the date-fns default). -/
def startOfWeekDay (z : Int) : Int := z - dayOfWeek z

/-- `eachWeekOfInterval({start, end})` as day numbers of week starts. -/
def eachWeekOfInterval (s e : CalDate) : List Int :=
  let b := daysFromCivil e
  let w0 := startOfWeekDay (daysFromCivil s)
  (List.range (((b - w0) / 7).toNat + 1)).map (fun k => w0 + 7 * (k : Int))

/-- Index of a month on the infinite month line. -/
def monthIdx (c : CalDate) : Int := 12 * c.y + (c.m - 1)

/-- `eachMonthOfInterval({start, end})` as day numbers of month starts. -/
def eachMonthOfInterval (s e : CalDate) : List Int :=
  (List.range ((monthIdx e - monthIdx s).toNat + 1)).map (fun k =>
    let i := monthIdx s + (k : Int)
    daysFromCivil ⟨i / 12, i % 12 + 1, 1⟩)

example : daysFromCivil ⟨1970, 1, 1⟩ = 0 := by decide
example : daysFromCivil ⟨2025, 7, 1⟩ = 20270 := by decide
example : civilFromDays 20270 = ⟨2025, 7, 1⟩ := by decide
example : formatDay 20270 = "2025-07-01" := by decide
example : formatMonth 20270 = "2025-07" := by decide
example : dayOfWeek 20270 = 2 := by decide

/-! ### Data model (`src/unnamed/part_005`, types section) -/

/-- `PRSize`: the six ordinal size buckets. -/
inductive PRSize
  | XS | S | M | L | XL | XXL
deriving DecidableEq, Repr

/-- PR lifecycle state (`'open' | 'closed' | 'merged'`); `open` is a Lean
keyword, so the first constructor is spelled `opened`. -/
inductive PRState
  | opened | closed | merged
deriving DecidableEq, Repr

/-- Review event state. -/
inductive ReviewState
  | APPROVED | CHANGES_REQUESTED | COMMENTED | DISMISSED | PENDING
deriving DecidableEq, Repr

/-- `PRReview`: one review event embedded in a PR record. -/
structure PRReview where
  reviewer : String
  state : ReviewState
  submittedAt : String
deriving DecidableEq, Repr

/-- `Record<PRSize, number>`: the six-bucket size histogram. -/
structure SizeDist where
  XS : Nat
  S : Nat
  M : Nat
  L : Nat
  XL : Nat
  XXL : Nat
deriving DecidableEq, Repr

/-- `distribution[pr.size]++`. -/
def SizeDist.bump (d : SizeDist) (s : PRSize) : SizeDist :=
  match s with
  | .XS => { d with XS := d.XS + 1 }
  | .S => { d with S := d.S + 1 }
  | .M => { d with M := d.M + 1 }
  | .L => { d with L := d.L + 1 }
  | .XL => { d with XL := d.XL + 1 }
  | .XXL => { d with XXL := d.XXL + 1 }

/-- The `{'XS': pr.size === 'XS' ? 1 : 0, ...}` initial histogram. -/
def initSizeDist (s : PRSize) : SizeDist :=
  ⟨if s = .XS then 1 else 0, if s = .S then 1 else 0, if s = .M then 1 else 0,
   if s = .L then 1 else 0, if s = .XL then 1 else 0, if s = .XXL then 1 else 0⟩

/-- `PullRequest`: one record per (repository, PR number).
Creation/merge/close timestamps are embedded at day precision. -/
structure PullRequest where
  id : Int
  number : Int
  title : String
  author : String
  authorAvatar : String
  state : PRState
  createdAt : CalDate
  mergedAt : Option CalDate
  closedAt : Option CalDate
  additions : Nat
  deletions : Nat
  changedFiles : Nat
  size : PRSize
  url : String
  repo : String
  languages : Option (AssocMap ℚ)
  reviewCount : Option Nat
  reviews : Option (List PRReview)
  complexity : Option Int
deriving DecidableEq, Repr

/-- `ContributorStats` (derived, not persisted). -/
structure ContributorStats where
  username : String
  avatar : String
  totalPRs : Nat
  mergedPRs : Nat
  sizeDistribution : SizeDist
  additions : Nat
  deletions : Nat
  prs : List PullRequest
  languageStats : Option (AssocMap ℚ)
  avgComplexity : Option Int
deriving DecidableEq, Repr

/-- `ReviewerStats` (derived). -/
structure ReviewerStats where
  username : String
  totalReviews : Nat
  approvals : Nat
  changesRequested : Nat
  comments : Nat
  reviewedPRs : List Int
deriving DecidableEq, Repr

/-- `TimelineData`: one timeline bucket. -/
structure TimelineData where
  date : String
  count : Nat
  XS : Nat
  S : Nat
  M : Nat
  L : Nat
  XL : Nat
  XXL : Nat
deriving DecidableEq, Repr

/-- `existing[pr.size]++` together with `existing.count++` on a bucket. -/
def bumpT (t : TimelineData) (s : PRSize) : TimelineData :=
  let t := { t with count := t.count + 1 }
  match s with
  | .XS => { t with XS := t.XS + 1 }
  | .S => { t with S := t.S + 1 }
  | .M => { t with M := t.M + 1 }
  | .L => { t with L := t.L + 1 }
  | .XL => { t with XL := t.XL + 1 }
  | .XXL => { t with XXL := t.XXL + 1 }

/-- `AnalysisResult`: the full output bundle of `analyzeResults`. -/
structure AnalysisResult where
  totalPRs : Nat
  mergedPRs : Nat
  openPRs : Nat
  closedPRs : Nat
  uniqueContributors : Nat
  sizeDistribution : SizeDist
  languageDistribution : AssocMap ℚ
  contributors : List ContributorStats
  reviewers : List ReviewerStats
  totalReviews : Nat
  avgComplexity : Int
  prs : List PullRequest
  timeline : List TimelineData
  repos : List String
  dateRange : CalDate × CalDate
deriving DecidableEq, Repr

/-! ### Analyzer (`src/unnamed/part_005`) -/

/-- `calculatePRSize(additions, deletions, filesChanged)`. -/
def calculatePRSize (additions deletions filesChanged : Nat) : PRSize :=
  let linesChanged : ℚ := (additions : ℚ) + (deletions : ℚ)
  let lineScore : ℚ := linesChanged
  let fileScore : ℚ := (filesChanged : ℚ) * 20
  let combinedScore : ℚ := lineScore * 0.7 + fileScore * 0.3
  if combinedScore < 10 then .XS
  else if combinedScore < 50 then .S
  else if combinedScore < 200 then .M
  else if combinedScore < 500 then .L
  else if combinedScore < 1000 then .XL
  else .XXL

/-- The `combinedScore` of `calculatePRSize`, named for the statements. -/
def combinedScore (additions deletions filesChanged : Nat) : ℚ :=
  ((additions : ℚ) + (deletions : ℚ)) * 0.7 + ((filesChanged : ℚ) * 20) * 0.3

/-- `LANGUAGE_COMPLEXITY_WEIGHTS`. -/
def LANGUAGE_COMPLEXITY_WEIGHTS : AssocMap ℚ :=
  [("C", 1.5), ("C++", 1.5), ("Rust", 1.5), ("Go", 1.4), ("Scala", 1.4), ("Haskell", 1.5),
   ("Java", 1.2), ("TypeScript", 1.2), ("C#", 1.2), ("Kotlin", 1.2), ("Swift", 1.2), ("F#", 1.3),
   ("JavaScript", 1.0), ("Python", 1.0), ("Ruby", 1.0), ("PHP", 1.0), ("Perl", 1.0),
   ("Elixir", 1.1), ("Clojure", 1.2), ("Erlang", 1.2), ("Lua", 1.0), ("R", 1.0),
   ("HTML", 0.5), ("CSS", 0.6), ("SCSS", 0.7), ("LESS", 0.7),
   ("Markdown", 0.3), ("JSON", 0.4), ("YAML", 0.4), ("TOML", 0.4), ("XML", 0.5),
   ("Vue", 1.1), ("Svelte", 1.0), ("Dart", 1.1),
   ("Shell", 0.8),
   ("SQL", 0.9),
   ("Other", 1.0)]

/-- JavaScript `x || d` on an optional number (`0` is falsy). -/
def jsOrQ (x : Option ℚ) (d : ℚ) : ℚ :=
  match x with
  | some v => if v = 0 then d else v
  | none => d

/-- `calculateComplexity(pr)`: 0–100 composite score, four components. -/
def calculateComplexity (pr : PullRequest) : Int :=
  let linesChanged := pr.additions + pr.deletions
  let sizeScore : Int :=
    if linesChanged ≤ 50 then 5
    else if linesChanged ≤ 200 then 15
    else if linesChanged ≤ 500 then 25
    else if linesChanged ≤ 1000 then 35
    else 40
  let fileScore : Int :=
    if pr.changedFiles ≤ 2 then 5
    else if pr.changedFiles ≤ 5 then 10
    else if pr.changedFiles ≤ 10 then 15
    else if pr.changedFiles ≤ 20 then 20
    else 25
  let languageScore : Int :=
    match pr.languages with
    | some ls =>
      if 0 < ls.length then
        let sums : ℚ × ℚ := ls.foldl
          (fun acc kv =>
            let weight := jsOrQ (mget LANGUAGE_COMPLEXITY_WEIGHTS kv.1) 1.0
            (acc.1 + weight * kv.2, acc.2 + kv.2))
          (0, 0)
        if 0 < sums.2 then
          let avgWeight := sums.1 / sums.2
          max 0 (min 20 (round ((avgWeight - 0.3) / 1.2 * 20)))
        else 10
      else 10
    | none => 10
  let reviewScore : Int :=
    let reviewCount := pr.reviewCount.getD 0
    if reviewCount = 0 then 0
    else if reviewCount ≤ 2 then 5
    else if reviewCount ≤ 5 then 10
    else 15
  min 100 (max 0 (sizeScore + fileScore + languageScore + reviewScore))

/-- Line estimate of one language entry of one PR:
`Math.round((pct / 100) * prLines)`. -/
def langLineEstimate (pr : PullRequest) (pct : ℚ) : ℚ :=
  jsRound (pct / 100 * ((pr.additions : ℚ) + (pr.deletions : ℚ)))

/-- The per-PR language-lines object built on first sight of a
contributor (`languageLines[lang] = Math.round(...)`, plain assignment). -/
def prLangLinesInit (pr : PullRequest) : AssocMap ℚ :=
  match pr.languages with
  | some ls => ls.foldl (fun m kv => mset m kv.1 (langLineEstimate pr kv.2)) []
  | none => []

/-- Accumulating a PR's language lines into an existing object
(`languageLines[lang] = (languageLines[lang] || 0) + lines`). -/
def addPrLangLines (m0 : AssocMap ℚ) (pr : PullRequest) : AssocMap ℚ :=
  match pr.languages with
  | some ls => ls.foldl (fun m kv => mset m kv.1 (mgetD m kv.1 0 + langLineEstimate pr kv.2)) m0
  | none => m0

/-- The contributor-map entry type:
`ContributorStats & { languageLines: Record<string, number> }`. -/
structure CData where
  username : String
  avatar : String
  totalPRs : Nat
  mergedPRs : Nat
  sizeDistribution : SizeDist
  additions : Nat
  deletions : Nat
  prs : List PullRequest
  languageLines : AssocMap ℚ
deriving DecidableEq, Repr

/-- The `contributorMap.set(pr.author, {...})` initial entry. -/
def initC (pr : PullRequest) : CData :=
  { username := pr.author
    avatar := pr.authorAvatar
    totalPRs := 1
    mergedPRs := if pr.state = .merged then 1 else 0
    sizeDistribution := initSizeDist pr.size
    additions := pr.additions
    deletions := pr.deletions
    prs := [pr]
    languageLines := prLangLinesInit pr }

/-- The in-place mutation of an existing contributor-map entry. -/
def updC (ex : CData) (pr : PullRequest) : CData :=
  { ex with
    totalPRs := ex.totalPRs + 1
    mergedPRs := if pr.state = .merged then ex.mergedPRs + 1 else ex.mergedPRs
    sizeDistribution := ex.sizeDistribution.bump pr.size
    additions := ex.additions + pr.additions
    deletions := ex.deletions + pr.deletions
    prs := ex.prs ++ [pr]
    languageLines := addPrLangLines ex.languageLines pr }

/-- One iteration of the contributor-grouping loop. -/
def contribStep (m : AssocMap CData) (pr : PullRequest) : AssocMap CData :=
  match mget m pr.author with
  | some ex => mset m pr.author (updC ex pr)
  | none => mset m pr.author (initC pr)

/-- The whole contributor-grouping loop of `aggregateByContributor`. -/
def contribMap (prs : List PullRequest) : AssocMap CData :=
  prs.foldl contribStep []

/-- Conversion of a contributor-map entry into `ContributorStats`
(language lines → percentages; average complexity). -/
def convertC (data : CData) : ContributorStats :=
  let totalLines : ℚ := (mvalues data.languageLines).foldl (· + ·) 0
  let languageStats : AssocMap ℚ :=
    if 0 < totalLines then
      data.languageLines.foldl
        (fun st kv => mset st kv.1 (jsRound (kv.2 / totalLines * 100))) []
    else []
  let avgComplexity : Option Int :=
    if 0 < data.prs.length then
      some (round (((data.prs.foldl (fun s pr => s + pr.complexity.getD 0) 0 : Int) : ℚ)
        / (data.prs.length : ℚ)))
    else none
  { username := data.username
    avatar := data.avatar
    totalPRs := data.totalPRs
    mergedPRs := data.mergedPRs
    sizeDistribution := data.sizeDistribution
    additions := data.additions
    deletions := data.deletions
    prs := data.prs
    languageStats := if 0 < languageStats.length then some languageStats else none
    avgComplexity := avgComplexity }

/-- `aggregateByContributor(prs)`: group by author, convert, sort by
`totalPRs` descending (stable). -/
def aggregateByContributor (prs : List PullRequest) : List ContributorStats :=
  List.insertionSort (fun a b => b.totalPRs ≤ a.totalPRs)
    ((mvalues (contribMap prs)).map convertC)

/-- `aggregateSizeDistribution(prs)`. -/
def aggregateSizeDistribution (prs : List PullRequest) : SizeDist :=
  prs.foldl (fun d pr => d.bump pr.size) ⟨0, 0, 0, 0, 0, 0⟩

/-- `aggregateLanguageDistribution(prs)`: line-weighted global language
percentages, sorted by percentage descending. -/
def aggregateLanguageDistribution (prs : List PullRequest) : AssocMap ℚ :=
  let languageLines : AssocMap ℚ := prs.foldl addPrLangLines []
  let totalLines : ℚ := (mvalues languageLines).foldl (· + ·) 0
  let distribution : AssocMap ℚ :=
    if 0 < totalLines then
      languageLines.foldl
        (fun d kv => mset d kv.1 (jsRound (kv.2 / totalLines * 100))) []
    else []
  objFromEntries (List.insertionSort (fun a b => b.2 ≤ a.2) distribution)

/-- One review event folded into the reviewer map. -/
def reviewerReviewStep (number : Int) (m : AssocMap ReviewerStats) (review : PRReview) :
    AssocMap ReviewerStats :=
  match mget m review.reviewer with
  | some ex =>
    mset m review.reviewer
      { ex with
        totalReviews := ex.totalReviews + 1
        approvals := if review.state = .APPROVED then ex.approvals + 1 else ex.approvals
        changesRequested :=
          if review.state = .CHANGES_REQUESTED then ex.changesRequested + 1
          else ex.changesRequested
        comments := if review.state = .COMMENTED then ex.comments + 1 else ex.comments
        reviewedPRs :=
          if ex.reviewedPRs.contains number then ex.reviewedPRs
          else ex.reviewedPRs ++ [number] }
  | none =>
    mset m review.reviewer
      { username := review.reviewer
        totalReviews := 1
        approvals := if review.state = .APPROVED then 1 else 0
        changesRequested := if review.state = .CHANGES_REQUESTED then 1 else 0
        comments := if review.state = .COMMENTED then 1 else 0
        reviewedPRs := [number] }

/-- One PR folded into the reviewer map (skips PRs with no reviews). -/
def reviewerStep (m : AssocMap ReviewerStats) (pr : PullRequest) : AssocMap ReviewerStats :=
  match pr.reviews with
  | none => m
  | some revs =>
    if revs.length = 0 then m
    else revs.foldl (reviewerReviewStep pr.number) m

/-- `aggregateByReviewer(prs)`. -/
def aggregateByReviewer (prs : List PullRequest) : List ReviewerStats :=
  List.insertionSort (fun a b => b.totalReviews ≤ a.totalReviews)
    (mvalues (prs.foldl reviewerStep []))

/-- The `intervals.find((d, i) => prDate >= d && (!nextWeek || prDate < nextWeek))`
week-start lookup of `aggregateTimeline`. -/
def findWeekStart : List Int → Int → Option Int
  | [], _ => none
  | [d], p => if d ≤ p then some d else none
  | d :: d2 :: rest, p =>
    if d ≤ p ∧ p < d2 then some d else findWeekStart (d2 :: rest) p

/-- The precomputed timeline intervals (day numbers) for a window. -/
def timelineIntervals (startDate endDate : CalDate) : List Int :=
  let daysDiff := differenceInDays endDate startDate
  if daysDiff ≤ 31 then eachDayOfInterval startDate endDate
  else if daysDiff ≤ 180 then eachWeekOfInterval startDate endDate
  else eachMonthOfInterval startDate endDate

/-- The `format` string in effect for a window (`yyyy-MM-dd` for daily and
weekly buckets, `yyyy-MM` for monthly buckets). -/
def timelineFormat (startDate endDate : CalDate) (z : Int) : String :=
  let daysDiff := differenceInDays endDate startDate
  if daysDiff ≤ 31 then formatDay z
  else if daysDiff ≤ 180 then formatDay z
  else formatMonth z

/-- The bucket key computed for one PR by the aggregation phase. -/
def timelineKey (startDate endDate : CalDate) (pr : PullRequest) : String :=
  let daysDiff := differenceInDays endDate startDate
  let prDate := daysFromCivil pr.createdAt
  if daysDiff ≤ 31 then formatDay prDate
  else if daysDiff ≤ 180 then
    match findWeekStart (timelineIntervals startDate endDate) prDate with
    | some w => formatDay w
    | none => formatDay prDate
  else formatMonth prDate

/-- The pre-created zero-count bucket map of `aggregateTimeline`. -/
def timelineInit (startDate endDate : CalDate) : AssocMap TimelineData :=
  (timelineIntervals startDate endDate).foldl
    (fun m z =>
      let key := timelineFormat startDate endDate z
      mset m key ⟨key, 0, 0, 0, 0, 0, 0, 0⟩)
    []

/-- The aggregation phase of `aggregateTimeline`: a PR bumps the bucket
with its key if one exists, and is silently dropped otherwise. -/
def timelineAgg (startDate endDate : CalDate) (m0 : AssocMap TimelineData)
    (prs : List PullRequest) : AssocMap TimelineData :=
  prs.foldl
    (fun m pr =>
      let key := timelineKey startDate endDate pr
      match mget m key with
      | some t => mset m key (bumpT t pr.size)
      | none => m)
    m0

/-- `aggregateTimeline(prs, startDate, endDate)`. -/
def aggregateTimeline (prs : List PullRequest) (startDate endDate : CalDate) :
    List TimelineData :=
  List.insertionSort (fun a b => strLe a.date b.date = true)
    (mvalues (timelineAgg startDate endDate (timelineInit startDate endDate) prs))

/-- The complexity annotation of `analyzeResults`:
`{ ...pr, complexity: pr.complexity ?? calculateComplexity(pr) }`. -/
def annotateComplexity (pr : PullRequest) : PullRequest :=
  { pr with complexity := some (pr.complexity.getD (calculateComplexity pr)) }

/-- `analyzeResults(prs, repos, startDate, endDate)`. -/
def analyzeResults (prs : List PullRequest) (repos : List String)
    (startDate endDate : CalDate) : AnalysisResult :=
  let prsWithComplexity := prs.map annotateComplexity
  let mergedPRs := (prsWithComplexity.filter (fun pr => pr.state == .merged)).length
  let openPRs := (prsWithComplexity.filter (fun pr => pr.state == .opened)).length
  let closedPRs := (prsWithComplexity.filter (fun pr => pr.state == .closed)).length
  let contributors := aggregateByContributor prsWithComplexity
  let reviewers := aggregateByReviewer prsWithComplexity
  let sizeDistribution := aggregateSizeDistribution prsWithComplexity
  let languageDistribution := aggregateLanguageDistribution prsWithComplexity
  let timeline := aggregateTimeline prsWithComplexity startDate endDate
  let totalReviews := prsWithComplexity.foldl (fun s pr => s + pr.reviewCount.getD 0) 0
  let avgComplexity : Int :=
    if 0 < prsWithComplexity.length then
      round (((prsWithComplexity.foldl (fun s pr => s + pr.complexity.getD 0) 0 : Int) : ℚ)
        / (prsWithComplexity.length : ℚ))
    else 0
  { totalPRs := prsWithComplexity.length
    mergedPRs := mergedPRs
    openPRs := openPRs
    closedPRs := closedPRs
    uniqueContributors := contributors.length
    sizeDistribution := sizeDistribution
    languageDistribution := languageDistribution
    contributors := contributors
    reviewers := reviewers
    totalReviews := totalReviews
    avgComplexity := avgComplexity
    prs := prsWithComplexity
    timeline := timeline
    repos := repos
    dateRange := (startDate, endDate) }

/-! ### Sync engine (`src/app/api/sync/route.ts`) -/

/-- `EXTENSION_TO_LANGUAGE`. -/
def EXTENSION_TO_LANGUAGE : AssocMap String :=
  [(".js", "JavaScript"), (".jsx", "JavaScript"), (".mjs", "JavaScript"), (".cjs", "JavaScript"),
   (".ts", "TypeScript"), (".tsx", "TypeScript"), (".mts", "TypeScript"), (".cts", "TypeScript"),
   (".py", "Python"), (".pyw", "Python"), (".pyi", "Python"),
   (".java", "Java"), (".kt", "Kotlin"), (".kts", "Kotlin"),
   (".c", "C"), (".h", "C"), (".cpp", "C++"), (".cc", "C++"), (".cxx", "C++"),
   (".hpp", "C++"), (".hxx", "C++"),
   (".cs", "C#"),
   (".go", "Go"),
   (".rs", "Rust"),
   (".rb", "Ruby"), (".erb", "Ruby"),
   (".php", "PHP"),
   (".swift", "Swift"),
   (".scala", "Scala"), (".sc", "Scala"),
   (".sh", "Shell"), (".bash", "Shell"), (".zsh", "Shell"),
   (".sql", "SQL"),
   (".html", "HTML"), (".htm", "HTML"), (".css", "CSS"), (".scss", "SCSS"),
   (".sass", "SCSS"), (".less", "LESS"),
   (".md", "Markdown"), (".mdx", "Markdown"), (".rst", "reStructuredText"),
   (".json", "JSON"), (".yaml", "YAML"), (".yml", "YAML"), (".toml", "TOML"), (".xml", "XML"),
   (".vue", "Vue"), (".svelte", "Svelte"), (".dart", "Dart"), (".r", "R"), (".R", "R"),
   (".lua", "Lua"), (".pl", "Perl"), (".pm", "Perl"), (".ex", "Elixir"), (".exs", "Elixir"),
   (".erl", "Erlang"), (".hrl", "Erlang"), (".clj", "Clojure"), (".cljs", "Clojure"),
   (".hs", "Haskell"), (".ml", "OCaml"), (".fs", "F#"), (".fsx", "F#")]

/-- `getLanguageFromPath(path)`: extension after the last `.`,
lower-cased, looked up in the table, `'Other'` if unknown. -/
def getLanguageFromPath (path : String) : String :=
  let ext := "." ++ jsToLower ⟨(splitOnChar '.' path.data).getLastD []⟩
  mgetD EXTENSION_TO_LANGUAGE ext "Other"

/-- A file node of the GraphQL PR payload. -/
structure FileNode where
  path : String
  additions : Nat
  deletions : Nat
deriving DecidableEq, Repr

/-- The per-PR `languageLines` accumulation of the sync loop
(`languageLines[language] = (languageLines[language] || 0) + lines`). -/
def fileLanguageLines (files : List FileNode) : AssocMap ℚ :=
  files.foldl
    (fun m file =>
      let language := getLanguageFromPath file.path
      let lines : ℚ := (file.additions : ℚ) + (file.deletions : ℚ)
      mset m language (mgetD m language 0 + lines))
    []

/-- The per-PR `languages` percentage map of the sync loop:
`languages[lang] = totalLines > 0 ? Math.round((lines / totalLines) * 100) : 0`. -/
def fileLanguages (files : List FileNode) : AssocMap ℚ :=
  let languageLines := fileLanguageLines files
  let totalLines : ℚ := (mvalues languageLines).foldl (· + ·) 0
  languageLines.foldl
    (fun m kv =>
      mset m kv.1 (if 0 < totalLines then jsRound (kv.2 / totalLines * 100) else 0))
    []

/-- `SYNC_CUTOFF_DATE = new Date('2025-07-01T00:00:00Z')`,
as milliseconds since the epoch. -/
def SYNC_CUTOFF_DATE : Int := 1751328000000

/-- The cutoff-date determination of the sync `POST` handler. -/
def computeCutoffDate (fullSync : Bool) (lastSynced : Option Int) : Int :=
  if fullSync then SYNC_CUTOFF_DATE
  else
    match lastSynced with
    | some t => t - 24 * 60 * 60 * 1000
    | none => SYNC_CUTOFF_DATE

/-- A GraphQL PR node, reduced to the fields driving the pagination
loop's control flow (`updatedAt` as milliseconds since the epoch). -/
structure GQLNode where
  number : Int
  updatedAt : Int
deriving DecidableEq, Repr

/-- The nodes of one page accepted before the cutoff check trips
(`if (new Date(pr.updatedAt) < cutoffDate) { shouldStop = true; break; }`). -/
def pageAccept (cutoff : Int) (page : List GQLNode) : List GQLNode :=
  page.takeWhile (fun pr => !(pr.updatedAt < cutoff))

/-- The paginated fetch loop for one repository: the PR source is a list
of pages in descending-`updatedAt` request order; `hasNextPage` holds
exactly when further pages remain.  Processing a page stops the whole
loop the moment a node older than the cutoff is seen. -/
def fetchPRPages (cutoff : Int) : List (List GQLNode) → List GQLNode
  | [] => []
  | page :: rest =>
    let keep := pageAccept cutoff page
    if keep.length = page.length then keep ++ fetchPRPages cutoff rest
    else keep

/-- `s.includes(sub)` on strings (scan every suffix for a prefix match). -/
def suffixesHave (sub : List Char) : List Char → Bool
  | [] => sub.isEmpty
  | c :: cs => sub.isPrefixOf (c :: cs) || suffixesHave sub cs

/-- JavaScript `message.includes(pattern)`. -/
def jsIncludes (s sub : String) : Bool := suffixesHave sub.data s.data

/-- The rate-limit detection of the per-repository `catch` block. -/
def isRateLimitError (message : String) : Bool :=
  jsIncludes message "rate limit" || jsIncludes message "403" ||
    jsIncludes message "RATE_LIMITED"

/-- `const [owner, repo] = repoPath.split('/'); if (!owner || !repo) continue;` -/
def validRepoPath (repoPath : String) : Bool :=
  match (splitOnChar '/' repoPath.data).map (fun part => (⟨part⟩ : String)) with
  | owner :: repo :: _ => !(owner == "") && !(repo == "")
  | _ => false

/-- Outcome of fetching one repository from the external PR source:
either a count of synced records or a thrown error's message. -/
inductive RepoOutcome
  | ok (synced : Nat)
  | err (message : String)
deriving DecidableEq, Repr

/-- One entry of the `results` list of the sync `POST` handler. -/
structure SyncResultEntry where
  repo : String
  synced : Nat
  error : Option String
deriving DecidableEq, Repr

/-- The sequential multi-repository loop of the sync `POST` handler,
with each repository's externally-determined fetch outcome supplied as
data: an error is caught and recorded, and only a rate-limit-class error
breaks out of the loop. -/
def runSync : List (String × RepoOutcome) → List SyncResultEntry
  | [] => []
  | (repoPath, outcome) :: rest =>
    if validRepoPath repoPath then
      match outcome with
      | .ok n => ⟨repoPath, n, none⟩ :: runSync rest
      | .err message =>
        ⟨repoPath, 0, some message⟩ ::
          (if isRateLimitError message then [] else runSync rest)
    else runSync rest

/-! ### Persistence (`src/lib/database.ts`) -/

/-- One row of the `pull_requests` table. -/
structure DBRow where
  id : Int
  number : Int
  repo : String
  title : String
  author : String
  author_avatar : String
  state : PRState
  created_at : CalDate
  merged_at : Option CalDate
  closed_at : Option CalDate
  additions : Nat
  deletions : Nat
  changed_files : Nat
  size : PRSize
  url : String
  updated_at : Int
  languages : Option (AssocMap ℚ)
  review_count : Nat
  reviews : Option (List PRReview)
deriving DecidableEq, Repr

/-- The row bound by `savePullRequests` for one record; `now` is the
bookkeeping `new Date().toISOString()` timestamp (milliseconds). -/
def rowOfPR (now : Int) (pr : PullRequest) : DBRow :=
  { id := pr.id
    number := pr.number
    repo := pr.repo
    title := pr.title
    author := pr.author
    author_avatar := pr.authorAvatar
    state := pr.state
    created_at := pr.createdAt
    merged_at := pr.mergedAt
    closed_at := pr.closedAt
    additions := pr.additions
    deletions := pr.deletions
    changed_files := pr.changedFiles
    size := pr.size
    url := pr.url
    updated_at := now
    languages := pr.languages
    review_count := pr.reviewCount.getD 0
    reviews := pr.reviews }

/-- Whether an existing row conflicts with an incoming row under the
table's constraints: `id INTEGER PRIMARY KEY` or `UNIQUE(repo, number)`. -/
def rowConflicts (r q : DBRow) : Bool :=
  q.id == r.id || (q.repo == r.repo && q.number == r.number)

/-- `INSERT OR REPLACE`: SQLite's REPLACE conflict resolution deletes
every pre-existing row violating any uniqueness constraint against the
incoming row, then inserts the incoming row. -/
def replaceInto (store : List DBRow) (r : DBRow) : List DBRow :=
  store.filter (fun q => !(rowConflicts r q)) ++ [r]

/-- `savePullRequests(prs)`: the prepared statement run for each record
inside one transaction. -/
def savePullRequests (now : Int) (store : List DBRow) (prs : List PullRequest) :
    List DBRow :=
  prs.foldl (fun s pr => replaceInto s (rowOfPR now pr)) store

/-- Point read of the row stored under a `(repo, number)` key. -/
def readBack (store : List DBRow) (repo : String) (number : Int) : Option DBRow :=
  store.find? (fun q => q.repo == repo && q.number == number)

/-! ### FilterEngine (`src/app/page.tsx`, the `filteredData` memo) -/

/-- `ALL_SIZES`. -/
def ALL_SIZES : List PRSize := [.XS, .S, .M, .L, .XL, .XXL]

/-- Repo filter stage (`pass-through when the subset is empty`). -/
def repoFilteredPRs (repoFilter : List String) (prs : List PullRequest) :
    List PullRequest :=
  if 0 < repoFilter.length then prs.filter (fun pr => repoFilter.contains pr.repo)
  else prs

/-- Contributor filter stage (case-insensitive handle match,
pass-through when the subset is empty). -/
def contributorFilteredPRs (contributorFilter : List String) (prs : List PullRequest) :
    List PullRequest :=
  if 0 < contributorFilter.length then
    prs.filter (fun pr =>
      contributorFilter.any (fun handle => jsToLower pr.author == jsToLower handle))
  else prs

/-- Size filter stage (never treated as unspecified). -/
def sizeFilteredPRs (sizeFilter : List PRSize) (prs : List PullRequest) :
    List PullRequest :=
  prs.filter (fun pr => sizeFilter.contains pr.size)

/-- The composed filter pipeline of `filteredData`. -/
def fullyFilteredPRs (repoFilter contributorFilter : List String)
    (sizeFilter : List PRSize) (prs : List PullRequest) : List PullRequest :=
  sizeFilteredPRs sizeFilter
    (contributorFilteredPRs contributorFilter (repoFilteredPRs repoFilter prs))

/-- The contributor-map loop re-implemented inside `filteredData`
(field-for-field identical to the analyzer's loop). -/
def fdContribStep (m : AssocMap CData) (pr : PullRequest) : AssocMap CData :=
  match mget m pr.author with
  | some ex => mset m pr.author (updC ex pr)
  | none => mset m pr.author (initC pr)

/-- The contributor map built by `filteredData`. -/
def fdContribMap (prs : List PullRequest) : AssocMap CData :=
  prs.foldl fdContribStep []

/-- `filteredData`'s conversion of a contributor-map entry: language
stats are sorted by percentage descending, and no `avgComplexity` field
is produced. -/
def fdConvertC (c : CData) : ContributorStats :=
  let totalLines : ℚ := (mvalues c.languageLines).foldl (· + ·) 0
  let languageStats : AssocMap ℚ :=
    if 0 < totalLines then
      c.languageLines.foldl
        (fun st kv => mset st kv.1 (jsRound (kv.2 / totalLines * 100))) []
    else []
  let sortedStats := objFromEntries (List.insertionSort (fun a b => b.2 ≤ a.2) languageStats)
  { username := c.username
    avatar := c.avatar
    totalPRs := c.totalPRs
    mergedPRs := c.mergedPRs
    sizeDistribution := c.sizeDistribution
    additions := c.additions
    deletions := c.deletions
    prs := c.prs
    languageStats := if 0 < sortedStats.length then some sortedStats else none
    avgComplexity := none }

/-- `newContributors` of `filteredData`. -/
def fdContributors (prs : List PullRequest) : List ContributorStats :=
  List.insertionSort (fun a b => b.totalPRs ≤ a.totalPRs)
    ((mvalues (fdContribMap prs)).map fdConvertC)

/-- `sortedLangDist` of `filteredData` (same line-weighted re-derivation
as the analyzer, sorted by percentage and rebuilt with
`Object.fromEntries`). -/
def fdLanguageDistribution (prs : List PullRequest) : AssocMap ℚ :=
  let languageLines : AssocMap ℚ := prs.foldl addPrLangLines []
  let totalLangLines : ℚ := (mvalues languageLines).foldl (· + ·) 0
  let newLanguageDistribution : AssocMap ℚ :=
    if 0 < totalLangLines then
      languageLines.foldl
        (fun d kv => mset d kv.1 (jsRound (kv.2 / totalLangLines * 100))) []
    else []
  objFromEntries (List.insertionSort (fun a b => b.2 ≤ a.2) newLanguageDistribution)

/-- `newTimeline` of `filteredData`: each pre-existing bucket is
re-counted from the filtered records matched by a date-string
comparison: `prDate === t.date || t.date.startsWith(prDate.substring(0, 7))`
where `prDate = pr.createdAt.substring(0, 10)`. -/
def fdTimeline (fullyFiltered : List PullRequest) (timeline : List TimelineData) :
    List TimelineData :=
  timeline.map (fun t =>
    let prsForDate := fullyFiltered.filter (fun pr =>
      let prDate := formatDay (daysFromCivil pr.createdAt)
      prDate == t.date || jsStartsWith t.date (jsTake prDate 7))
    let counts : SizeDist :=
      prsForDate.foldl (fun d pr => d.bump pr.size) ⟨0, 0, 0, 0, 0, 0⟩
    { t with
      count := prsForDate.length
      XS := counts.XS
      S := counts.S
      M := counts.M
      L := counts.L
      XL := counts.XL
      XXL := counts.XXL })

/-- The reviewer-map loop re-implemented inside `filteredData`
(field-for-field identical to the analyzer's loop). -/
def fdReviewerStep (m : AssocMap ReviewerStats) (pr : PullRequest) :
    AssocMap ReviewerStats :=
  match pr.reviews with
  | none => m
  | some revs =>
    if revs.length = 0 then m
    else revs.foldl (reviewerReviewStep pr.number) m

/-- `newReviewers` of `filteredData`. -/
def fdReviewers (prs : List PullRequest) : List ReviewerStats :=
  List.insertionSort (fun a b => b.totalReviews ≤ a.totalReviews)
    (mvalues (prs.foldl fdReviewerStep []))

/-- `filteredData`: the client-side refilter of a previously computed
`AnalysisResult` under (repo, contributor, size) subsets. -/
def filteredData (repoFilter contributorFilter : List String)
    (sizeFilter : List PRSize) (data : AnalysisResult) : AnalysisResult :=
  let fullyFiltered :=
    fullyFilteredPRs repoFilter contributorFilter sizeFilter data.prs
  let newSizeDistribution :=
    fullyFiltered.foldl (fun d pr => d.bump pr.size) ⟨0, 0, 0, 0, 0, 0⟩
  let sortedLangDist := fdLanguageDistribution fullyFiltered
  let newContributors := fdContributors fullyFiltered
  let newTimeline := fdTimeline fullyFiltered data.timeline
  let newReviewers := fdReviewers fullyFiltered
  let newTotalReviews := fullyFiltered.foldl (fun s pr => s + pr.reviewCount.getD 0) 0
  let newAvgComplexity : Int :=
    if 0 < fullyFiltered.length then
      round (((fullyFiltered.foldl (fun s pr => s + pr.complexity.getD 0) 0 : Int) : ℚ)
        / (fullyFiltered.length : ℚ))
    else 0
  { data with
    totalPRs := fullyFiltered.length
    mergedPRs := (fullyFiltered.filter (fun pr => pr.state == .merged)).length
    openPRs := (fullyFiltered.filter (fun pr => pr.state == .opened)).length
    closedPRs := (fullyFiltered.filter (fun pr => pr.state == .closed)).length
    uniqueContributors := newContributors.length
    prs := fullyFiltered
    contributors := newContributors
    reviewers := newReviewers
    totalReviews := newTotalReviews
    avgComplexity := newAvgComplexity
    sizeDistribution := newSizeDistribution
    languageDistribution := sortedLangDist
    timeline := newTimeline }

/-! ### Claim C4 — SizeClassifier boundaries -/

set_option maxHeartbeats 1600000 in
/-- C4: `calculatePRSize` is total (it is a Lean function) and buckets by
strict `<` against ascending thresholds, first match wins; inputs whose
`combinedScore` equals a threshold land in the higher bucket. -/
theorem C4_sizeClassifier (additions deletions filesChanged : Nat) :
    (calculatePRSize additions deletions filesChanged = .XS ↔
      combinedScore additions deletions filesChanged < 10)
    ∧ (calculatePRSize additions deletions filesChanged = .S ↔
      10 ≤ combinedScore additions deletions filesChanged ∧
        combinedScore additions deletions filesChanged < 50)
    ∧ (calculatePRSize additions deletions filesChanged = .M ↔
      50 ≤ combinedScore additions deletions filesChanged ∧
        combinedScore additions deletions filesChanged < 200)
    ∧ (calculatePRSize additions deletions filesChanged = .L ↔
      200 ≤ combinedScore additions deletions filesChanged ∧
        combinedScore additions deletions filesChanged < 500)
    ∧ (calculatePRSize additions deletions filesChanged = .XL ↔
      500 ≤ combinedScore additions deletions filesChanged ∧
        combinedScore additions deletions filesChanged < 1000)
    ∧ (calculatePRSize additions deletions filesChanged = .XXL ↔
      1000 ≤ combinedScore additions deletions filesChanged)
    ∧ (combinedScore additions deletions filesChanged = 10 →
      calculatePRSize additions deletions filesChanged = .S)
    ∧ (combinedScore additions deletions filesChanged = 50 →
      calculatePRSize additions deletions filesChanged = .M)
    ∧ (combinedScore additions deletions filesChanged = 200 →
      calculatePRSize additions deletions filesChanged = .L)
    ∧ (combinedScore additions deletions filesChanged = 500 →
      calculatePRSize additions deletions filesChanged = .XL)
    ∧ (combinedScore additions deletions filesChanged = 1000 →
      calculatePRSize additions deletions filesChanged = .XXL) := by
  simp only [calculatePRSize, combinedScore]
  split_ifs with h1 h2 h3 h4 h5 <;>
    refine ⟨?_, ?_, ?_, ?_, ?_, ?_, ?_, ?_, ?_, ?_, ?_⟩ <;>
    simp_all <;> intros <;> linarith

/-- C4 witness: `combinedScore 20 0 6 = 0.7·20 + 0.3·120 = 50` exactly,
and the classifier puts it in `M`, the bucket above `S`. -/
theorem C4_sizeClassifier_witness :
    combinedScore 20 0 6 = 50 ∧ calculatePRSize 20 0 6 = PRSize.M :=
  ⟨by norm_num [combinedScore],
   (C4_sizeClassifier 20 0 6).2.2.2.2.2.2.2.1 (by norm_num [combinedScore])⟩

/-! ### Claim C5 — ComplexityScorer range -/

/-- Size component (0–40) of `calculateComplexity`. -/
def sizeComponent (linesChanged : Nat) : Int :=
  if linesChanged ≤ 50 then 5
  else if linesChanged ≤ 200 then 15
  else if linesChanged ≤ 500 then 25
  else if linesChanged ≤ 1000 then 35
  else 40

/-- File-spread component (0–25) of `calculateComplexity`. -/
def fileComponent (changedFiles : Nat) : Int :=
  if changedFiles ≤ 2 then 5
  else if changedFiles ≤ 5 then 10
  else if changedFiles ≤ 10 then 15
  else if changedFiles ≤ 20 then 20
  else 25

/-- Language-complexity component (0–20) of `calculateComplexity`. -/
def languageComponent (languages : Option (AssocMap ℚ)) : Int :=
  match languages with
  | some ls =>
    if 0 < ls.length then
      let sums : ℚ × ℚ := ls.foldl
        (fun acc kv =>
          let weight := jsOrQ (mget LANGUAGE_COMPLEXITY_WEIGHTS kv.1) 1.0
          (acc.1 + weight * kv.2, acc.2 + kv.2))
        (0, 0)
      if 0 < sums.2 then
        let avgWeight := sums.1 / sums.2
        max 0 (min 20 (round ((avgWeight - 0.3) / 1.2 * 20)))
      else 10
    else 10
  | none => 10

/-- Review-intensity component (0–15) of `calculateComplexity`. -/
def reviewComponent (reviewCount : Nat) : Int :=
  if reviewCount = 0 then 0
  else if reviewCount ≤ 2 then 5
  else if reviewCount ≤ 5 then 10
  else 15

/-- The minimal PR of the claim: zero lines, zero files, no language
map, no reviews. -/
def zeroPR : PullRequest :=
  { id := 0
    number := 1
    title := ""
    author := "alice"
    authorAvatar := ""
    state := .opened
    createdAt := ⟨2025, 7, 1⟩
    mergedAt := none
    closedAt := none
    additions := 0
    deletions := 0
    changedFiles := 0
    size := .XS
    url := ""
    repo := "octo/repo"
    languages := none
    reviewCount := none
    reviews := none
    complexity := none }

/-- C5: `calculateComplexity` is the outer-clamped sum of the four
independently clamped sub-scores; it always lands in [0, 100]; each
component respects its own maximum, all step boundaries are inclusive on
the upper bound, and the all-zero PR scores exactly 5 + 5 + 10 + 0 = 20. -/
theorem C5_complexityScorer (pr : PullRequest) :
    0 ≤ calculateComplexity pr
    ∧ calculateComplexity pr ≤ 100
    ∧ calculateComplexity pr =
      min 100 (max 0
        (sizeComponent (pr.additions + pr.deletions) + fileComponent pr.changedFiles +
          languageComponent pr.languages + reviewComponent (pr.reviewCount.getD 0)))
    ∧ (5 ≤ sizeComponent (pr.additions + pr.deletions)
        ∧ sizeComponent (pr.additions + pr.deletions) ≤ 40)
    ∧ (5 ≤ fileComponent pr.changedFiles ∧ fileComponent pr.changedFiles ≤ 25)
    ∧ (0 ≤ languageComponent pr.languages ∧ languageComponent pr.languages ≤ 20)
    ∧ (0 ≤ reviewComponent (pr.reviewCount.getD 0)
        ∧ reviewComponent (pr.reviewCount.getD 0) ≤ 15)
    ∧ sizeComponent 50 = 5 ∧ sizeComponent 200 = 15
    ∧ sizeComponent 500 = 25 ∧ sizeComponent 1000 = 35
    ∧ fileComponent 2 = 5 ∧ fileComponent 5 = 10
    ∧ fileComponent 10 = 15 ∧ fileComponent 20 = 20
    ∧ reviewComponent 2 = 5 ∧ reviewComponent 5 = 10
    ∧ calculateComplexity zeroPR = 20 := by
  have hsize : 5 ≤ sizeComponent (pr.additions + pr.deletions)
      ∧ sizeComponent (pr.additions + pr.deletions) ≤ 40 := by
    unfold sizeComponent; split_ifs <;> norm_num
  have hfile : 5 ≤ fileComponent pr.changedFiles ∧ fileComponent pr.changedFiles ≤ 25 := by
    unfold fileComponent; split_ifs <;> norm_num
  have hlang : 0 ≤ languageComponent pr.languages ∧ languageComponent pr.languages ≤ 20 := by
    unfold languageComponent
    cases pr.languages with
    | none => norm_num
    | some ls =>
      dsimp only
      split_ifs <;> norm_num
  have hreview : 0 ≤ reviewComponent (pr.reviewCount.getD 0)
      ∧ reviewComponent (pr.reviewCount.getD 0) ≤ 15 := by
    unfold reviewComponent; split_ifs <;> norm_num
  have heq : calculateComplexity pr =
      min 100 (max 0
        (sizeComponent (pr.additions + pr.deletions) + fileComponent pr.changedFiles +
          languageComponent pr.languages + reviewComponent (pr.reviewCount.getD 0))) := rfl
  refine ⟨?_, ?_, heq, hsize, hfile, hlang, hreview,
    by decide, by decide, by decide, by decide, by decide, by decide, by decide, by decide,
    by decide, by decide, by decide⟩
  · rw [heq]; exact le_min (by norm_num) (le_max_left 0 _)
  · rw [heq]; exact min_le_left 100 _

/-! ### AssocMap lemmas -/

theorem mget_cons {β : Type} (k' : String) (v' : β) (rest : AssocMap β) (k : String) :
    mget ((k', v') :: rest) k = if k' = k then some v' else mget rest k := by
  by_cases h : k' = k <;> simp [mget, List.find?_cons, h]

theorem mget_mset_self {β : Type} (m : AssocMap β) (k : String) (v : β) :
    mget (mset m k v) k = some v := by
  induction m with
  | nil => simp [mset, mget_cons]
  | cons kv rest ih =>
    obtain ⟨k', v'⟩ := kv
    by_cases h : k' = k <;> simp [mset, h, mget_cons, ih]

theorem mget_mset_ne {β : Type} (m : AssocMap β) (k k' : String) (v : β) (h : k ≠ k') :
    mget (mset m k v) k' = mget m k' := by
  induction m with
  | nil => simp [mset, mget_cons, h]
  | cons kv rest ih =>
    obtain ⟨k0, v0⟩ := kv
    by_cases h0 : k0 = k
    · subst h0; simp [mset, mget_cons, h]
    · simp [mset, h0, mget_cons, ih]

theorem mem_mset {β : Type} {m : AssocMap β} {k : String} {v : β} {kv : String × β}
    (h : kv ∈ mset m k v) : kv ∈ m ∨ kv = (k, v) := by
  induction m with
  | nil => simpa [mset] using h
  | cons kv0 rest ih =>
    obtain ⟨k0, v0⟩ := kv0
    by_cases h0 : k0 = k
    · simp only [mset, h0, if_true] at h
      rcases List.mem_cons.mp h with h | h
      · right; exact h
      · left; exact List.mem_cons_of_mem _ h
    · simp only [mset, h0, if_false] at h
      rcases List.mem_cons.mp h with h | h
      · left; exact h ▸ List.mem_cons_self _ _
      · rcases ih h with h | h
        · left; exact List.mem_cons_of_mem _ h
        · right; exact h

theorem mset_ne_nil {β : Type} (m : AssocMap β) (k : String) (v : β) :
    mset m k v ≠ [] := by
  cases m with
  | nil => simp [mset]
  | cons kv rest =>
    obtain ⟨k0, v0⟩ := kv
    by_cases h0 : k0 = k <;> simp [mset, h0]

theorem foldl_add_init (l : List ℚ) (a : ℚ) : l.foldl (· + ·) a = a + l.sum := by
  induction l generalizing a with
  | nil => simp
  | cons x xs ih => simp [ih, add_assoc]

/-- Updating a key by adding `x` to its current (default-0) value bumps
the value multiset's sum by exactly `x`. -/
theorem sum_mvalues_add_mset (m : AssocMap ℚ) (k : String) (x : ℚ) :
    (mvalues (mset m k (mgetD m k 0 + x))).sum = (mvalues m).sum + x := by
  induction m with
  | nil => simp [mset, mvalues, mgetD, mget]
  | cons kv rest ih =>
    obtain ⟨k0, v0⟩ := kv
    by_cases h0 : k0 = k
    · subst h0
      simp [mset, mvalues, mgetD, mget_cons]
      ring
    · simp only [mset, h0, if_false]
      have hget : mgetD ((k0, v0) :: rest) k 0 = mgetD rest k 0 := by
        simp [mgetD, mget_cons, h0]
      simp only [hget] at *
      simp [mvalues] at ih ⊢
      rw [ih]
      ring

/-- A fold whose step never returns the empty map (e.g. any `mset`)
starting from a nonempty map or over a nonempty list never produces the
empty map. -/
theorem foldl_ne_nil {α β : Type} (g : AssocMap β → α → AssocMap β)
    (hg : ∀ m x, g m x ≠ []) :
    ∀ (l : List α) (acc : AssocMap β), (acc ≠ [] ∨ l ≠ []) → l.foldl g acc ≠ [] := by
  intro l
  induction l with
  | nil =>
    intro acc h
    simpa using h.resolve_right (by simp)
  | cons x xs ih =>
    intro acc _
    exact ih _ (Or.inl (hg acc x))

/-! ### Claim C6 — LanguageAttributor on zero-total file lists -/

/-- The total changed lines seen by `fileLanguageLines` equals the sum
of `additions + deletions` over the file list. -/
theorem sum_fileLanguageLines (files : List FileNode) :
    (mvalues (fileLanguageLines files)).sum =
      ((files.map (fun f => f.additions + f.deletions)).sum : Nat) := by
  suffices h : ∀ (fs : List FileNode) (acc : AssocMap ℚ),
      (mvalues (fs.foldl
        (fun m file =>
          mset m (getLanguageFromPath file.path)
            (mgetD m (getLanguageFromPath file.path) 0 +
              ((file.additions : ℚ) + (file.deletions : ℚ)))) acc)).sum =
        (mvalues acc).sum + ((fs.map (fun f => f.additions + f.deletions)).sum : Nat) by
    simpa [fileLanguageLines, mvalues] using h files []
  intro fs
  induction fs with
  | nil => simp
  | cons f fs ih =>
    intro acc
    simp only [List.foldl_cons, ih, sum_mvalues_add_mset, List.map_cons, List.sum_cons]
    push_cast
    ring

/-- C6 counterexample: a nonempty file list whose total changed lines is
0 produces a map with a zero-percent entry, not an empty map (the claim
says the map "contains no entries at all" even for nonempty file lists). -/
theorem C6_counterexample :
    (([⟨"a.py", 0, 0⟩] : List FileNode).map (fun f => f.additions + f.deletions)).sum = 0
    ∧ fileLanguages [⟨"a.py", 0, 0⟩] = [("Python", 0)]
    ∧ fileLanguages [⟨"a.py", 0, 0⟩] ≠ [] := by
  have h : getLanguageFromPath "a.py" = "Python" := by decide
  refine ⟨by decide, ?_, ?_⟩ <;>
    norm_num [fileLanguages, fileLanguageLines, h, mgetD, mget, mset, mvalues, jsRound]

/-- C6 (amended): when the total changed lines of the file list is 0,
the attribution map carries one entry per attributed language, each
mapped to 0 percent — so it is empty exactly when the file list itself
is empty, and never because of the zero total. -/
theorem C6_languageAttributor_zeroTotal (files : List FileNode)
    (h : (files.map (fun f => f.additions + f.deletions)).sum = 0) :
    (∀ kv ∈ fileLanguages files, kv.2 = 0)
    ∧ (fileLanguages files = [] ↔ files = []) := by
  have htot : (mvalues (fileLanguageLines files)).sum = 0 := by
    rw [sum_fileLanguageLines, h]; simp
  have hzero : ∀ kv ∈ fileLanguages files, kv.2 = 0 := by
    unfold fileLanguages
    simp only [foldl_add_init, zero_add, htot, lt_self_iff_false, if_false]
    suffices hz : ∀ (l : List (String × ℚ)) (acc : AssocMap ℚ),
        (∀ kv ∈ acc, kv.2 = 0) →
        ∀ kv ∈ l.foldl (fun m kv => mset m kv.1 (0 : ℚ)) acc, kv.2 = 0 by
      exact hz _ [] (by simp)
    intro l
    induction l with
    | nil => intro acc hacc; simpa using hacc
    | cons kv0 rest ih =>
      intro acc hacc
      refine ih _ ?_
      intro kv hkv
      rcases mem_mset hkv with hkv | hkv
      · exact hacc _ hkv
      · simp [hkv]
  refine ⟨hzero, ?_⟩
  constructor
  · intro hempty
    by_contra hne
    have h1 : fileLanguageLines files ≠ [] := by
      cases files with
      | nil => exact absurd rfl hne
      | cons f fs =>
        exact foldl_ne_nil _ (fun m x => mset_ne_nil _ _ _) _ _ (Or.inr (by simp))
    have h2 : fileLanguages files ≠ [] := by
      unfold fileLanguages
      cases hll : fileLanguageLines files with
      | nil => exact absurd hll h1
      | cons kv rest =>
        simp only [hll]
        exact foldl_ne_nil _ (fun m x => mset_ne_nil _ _ _) _ _ (Or.inr (by simp))
    exact h2 hempty
  · intro hfiles
    subst hfiles
    rfl

/-- C6 witness: the amended statement applied to the concrete zero-line
`a.py` file list. -/
theorem C6_languageAttributor_zeroTotal_witness :
    fileLanguages [(⟨"a.py", 0, 0⟩ : FileNode)] = [] ↔
      ([⟨"a.py", 0, 0⟩] : List FileNode) = [] :=
  (C6_languageAttributor_zeroTotal [⟨"a.py", 0, 0⟩] (by decide)).2

/-! ### Claim C3 — incremental sync cutoff and early stop -/

/-- The accumulated nodes of the pagination loop are exactly the maximal
prefix of the page stream's concatenation whose nodes are at-or-after
the cutoff. -/
theorem fetchPRPages_takeWhile (cutoff : Int) (pages : List (List GQLNode)) :
    fetchPRPages cutoff pages =
      pages.flatten.takeWhile (fun pr => !(pr.updatedAt < cutoff)) := by
  induction pages with
  | nil => rfl
  | cons page rest ih =>
    show (let keep := pageAccept cutoff page
          if keep.length = page.length then keep ++ fetchPRPages cutoff rest else keep) = _
    simp only [List.flatten_cons, List.takeWhile_append, pageAccept]
    by_cases h : (List.takeWhile (fun pr => !decide (pr.updatedAt < cutoff)) page).length =
        page.length
    · have hself : List.takeWhile (fun pr => !decide (pr.updatedAt < cutoff)) page = page :=
        (List.takeWhile_sublist _).eq_of_length h
      simp [h, hself, ih]
    · simp [h]

/-- C3: in incremental (non-full) mode the cutoff is last-synced-at
minus 24 hours when a sync-status record exists and the fixed
2025-07-01T00:00:00Z epoch otherwise; the pagination loop accumulates
exactly the maximal prefix (across the page stream, in order) of nodes
at-or-after the cutoff — so nothing on a page at or after the first
too-old node, nothing from any later page, and in particular no node
older than the cutoff, is ever accumulated (and hence stored). -/
theorem C3_syncCutoff (t : Int) (cutoff : Int) (pages : List (List GQLNode))
    (pr : GQLNode) (hmem : pr ∈ fetchPRPages cutoff pages) :
    computeCutoffDate false (some t) = t - 24 * 60 * 60 * 1000
    ∧ computeCutoffDate false none = SYNC_CUTOFF_DATE
    ∧ fetchPRPages cutoff pages =
        pages.flatten.takeWhile (fun pr => !(pr.updatedAt < cutoff))
    ∧ cutoff ≤ pr.updatedAt := by
  refine ⟨rfl, rfl, fetchPRPages_takeWhile cutoff pages, ?_⟩
  rw [fetchPRPages_takeWhile cutoff pages] at hmem
  have := List.mem_takeWhile_imp hmem
  simpa using this

/-- C3 witness: a two-page stream where the second node of page one is
already older than the cutoff; only the first node is accepted. -/
theorem C3_syncCutoff_witness :
    computeCutoffDate false (some 90000000) = 90000000 - 24 * 60 * 60 * 1000
    ∧ fetchPRPages 10 [[⟨1, 12⟩, ⟨2, 9⟩, ⟨3, 11⟩], [⟨4, 30⟩]] = [⟨1, 12⟩]
    ∧ (10 : Int) ≤ (12 : Int) :=
  ⟨(C3_syncCutoff 90000000 10 [[⟨1, 12⟩, ⟨2, 9⟩, ⟨3, 11⟩], [⟨4, 30⟩]] ⟨1, 12⟩
      (by decide)).1,
   by decide,
   (C3_syncCutoff 90000000 10 [[⟨1, 12⟩, ⟨2, 9⟩, ⟨3, 11⟩], [⟨4, 30⟩]] ⟨1, 12⟩
      (by decide)).2.2.2⟩

/-! ### Claim C9 — per-repository failure handling -/

/-- C9: a repository whose fetch throws is recorded with its message and
does not stop the remaining repositories — unless the message is
rate-limit-class, which stops the loop; every repository the loop
reaches (with a well-formed `owner/name` path, and no earlier rate-limit
abort) contributes an entry to the results list. -/
theorem C9_perRepoErrors :
    (∀ (repoPath message : String) (rest : List (String × RepoOutcome)),
      validRepoPath repoPath = true → isRateLimitError message = false →
      runSync ((repoPath, RepoOutcome.err message) :: rest) =
        ⟨repoPath, 0, some message⟩ :: runSync rest)
    ∧ (∀ (repoPath message : String) (rest : List (String × RepoOutcome)),
      validRepoPath repoPath = true → isRateLimitError message = true →
      runSync ((repoPath, RepoOutcome.err message) :: rest) =
        [⟨repoPath, 0, some message⟩])
    ∧ (∀ (pre suf : List (String × RepoOutcome)) (repoPath : String)
        (outcome : RepoOutcome),
      validRepoPath repoPath = true →
      (∀ q ∈ pre, validRepoPath q.1 = true →
        ∀ m, q.2 = RepoOutcome.err m → isRateLimitError m = false) →
      ∃ entry ∈ runSync (pre ++ (repoPath, outcome) :: suf), entry.repo = repoPath) := by
  refine ⟨?_, ?_, ?_⟩
  · intro repoPath message rest hv hr
    simp [runSync, hv, hr]
  · intro repoPath message rest hv hr
    simp [runSync, hv, hr]
  · intro pre
    induction pre with
    | nil =>
      intro suf repoPath outcome hv _
      cases outcome with
      | ok n => exact ⟨⟨repoPath, n, none⟩, by simp [runSync, hv], rfl⟩
      | err m =>
        refine ⟨⟨repoPath, 0, some m⟩, ?_, rfl⟩
        by_cases hr : isRateLimitError m = true <;> simp [runSync, hv, hr]
    | cons q pre ih =>
      intro suf repoPath outcome hv hpre
      obtain ⟨p0, oc0⟩ := q
      have hpre' : ∀ q ∈ pre, validRepoPath q.1 = true →
          ∀ m, q.2 = RepoOutcome.err m → isRateLimitError m = false := by
        intro q hq
        exact hpre q (List.mem_cons_of_mem _ hq)
      obtain ⟨entry, hmem, hrepo⟩ := ih suf repoPath outcome hv hpre'
      by_cases hv0 : validRepoPath p0 = true
      · cases oc0 with
        | ok n =>
          refine ⟨entry, ?_, hrepo⟩
          simp only [List.cons_append, runSync, hv0, if_true]
          exact List.mem_cons_of_mem _ hmem
        | err m =>
          have hr0 : isRateLimitError m = false :=
            hpre (p0, RepoOutcome.err m) (List.mem_cons_self _ _) hv0 m rfl
          refine ⟨entry, ?_, hrepo⟩
          simp only [List.cons_append, runSync, hv0, if_true, hr0,
            Bool.false_eq_true, if_false]
          exact List.mem_cons_of_mem _ hmem
      · refine ⟨entry, ?_, hrepo⟩
        simp only [List.cons_append, runSync, hv0, if_false]
        exact hmem

/-- C9 witness: a generic error entry does not stop the loop, a
rate-limit error entry does. -/
theorem C9_perRepoErrors_witness :
    runSync [("a/b", RepoOutcome.err "boom"), ("c/d", RepoOutcome.ok 1)] =
      [⟨"a/b", 0, some "boom"⟩, ⟨"c/d", 1, none⟩]
    ∧ runSync [("a/b", RepoOutcome.err "GraphQL RATE_LIMITED"), ("c/d", RepoOutcome.ok 1)] =
      [⟨"a/b", 0, some "GraphQL RATE_LIMITED"⟩] :=
  ⟨(C9_perRepoErrors.1 "a/b" "boom" [("c/d", RepoOutcome.ok 1)] (by decide)
      (by decide)).trans (by decide),
   C9_perRepoErrors.2.1 "a/b" "GraphQL RATE_LIMITED" [("c/d", RepoOutcome.ok 1)]
      (by decide) (by decide)⟩

/-! ### Claim C10 — overall totalReviews uses reviewCount only -/

/-- A PR whose stored `reviewCount` (3) exceeds its retained review
events (none — e.g. all review authors were missing at sync time, so
the sync filter dropped every event). -/
def c10pr : PullRequest :=
  { id := 10
    number := 7
    title := "c10"
    author := "alice"
    authorAvatar := ""
    state := .merged
    createdAt := ⟨2025, 7, 1⟩
    mergedAt := some ⟨2025, 7, 1⟩
    closedAt := none
    additions := 1
    deletions := 0
    changedFiles := 1
    size := .XS
    url := ""
    repo := "octo/repo"
    languages := none
    reviewCount := some 3
    reviews := none
    complexity := none }

/-- C10: the overall `totalReviews` of `analyzeResults` is the sum of
the records' optional `reviewCount` fields (0 when absent), ignoring the
embedded review-event lists; on `c10pr` it is 3 while the sum of the
`ReviewerStats` totals is 0 — the two genuinely diverge. -/
theorem C10_totalReviews (prs : List PullRequest) (repos : List String) (s e : CalDate) :
    (analyzeResults prs repos s e).totalReviews =
      (prs.map (fun pr => pr.reviewCount.getD 0)).sum
    ∧ (analyzeResults [c10pr] ["octo/repo"] ⟨2025, 7, 1⟩ ⟨2025, 7, 2⟩).totalReviews = 3
    ∧ ((analyzeResults [c10pr] ["octo/repo"] ⟨2025, 7, 1⟩ ⟨2025, 7, 2⟩).reviewers.map
        (fun rv => rv.totalReviews)).sum = 0 := by
  have hfold : ∀ (l : List PullRequest) (n : Nat),
      l.foldl (fun acc pr => acc + pr.reviewCount.getD 0) n =
        n + (l.map (fun pr => pr.reviewCount.getD 0)).sum := by
    intro l
    induction l with
    | nil => simp
    | cons x xs ih => intro n; simp [ih, Nat.add_assoc]
  refine ⟨?_, by decide, by decide⟩
  show (prs.map annotateComplexity).foldl (fun acc pr => acc + pr.reviewCount.getD 0) 0 = _
  rw [hfold, List.map_map]
  simp only [Nat.zero_add]
  rfl

/-! ### Claim C2 — upsert semantics of the pull_requests table -/

/-- No two rows of the store share a `(repo, number)` key. -/
def KeyUnique (store : List DBRow) : Prop :=
  store.Pairwise (fun q q' => ¬(q.repo = q'.repo ∧ q.number = q'.number))

/-- After `INSERT OR REPLACE` of `r`, the row read back under `r`'s
`(repo, number)` key is exactly `r`. -/
theorem readBack_replaceInto (store : List DBRow) (r : DBRow) :
    readBack (replaceInto store r) r.repo r.number = some r := by
  unfold readBack replaceInto
  induction store with
  | nil => simp
  | cons q rest ih =>
    cases hb : rowConflicts r q with
    | true => simpa [List.filter_cons, hb] using ih
    | false =>
      have hq : (q.repo == r.repo && q.number == r.number) = false := by
        have := hb
        simp only [rowConflicts, Bool.or_eq_false_iff] at this
        exact this.2
      simp [List.filter_cons, hb, List.find?_cons, hq, ih]

/-- REPLACE preserves `(repo, number)` uniqueness. -/
theorem KeyUnique_replaceInto {store : List DBRow} (r : DBRow) (h : KeyUnique store) :
    KeyUnique (replaceInto store r) := by
  unfold KeyUnique replaceInto
  rw [List.pairwise_append]
  refine ⟨h.sublist (List.filter_sublist _), List.pairwise_singleton _ _, ?_⟩
  intro a ha b hb
  have hb' : b = r := by simpa using hb
  subst hb'
  have := (List.mem_filter.mp ha).2
  simp only [rowConflicts, Bool.not_eq_eq_eq_not, Bool.not_true, Bool.or_eq_false_iff,
    Bool.and_eq_false_iff] at this
  rcases this with ⟨-, h2⟩
  rintro ⟨hrepo, hnum⟩
  rcases h2 with h2 | h2 <;> simp [hrepo, hnum] at h2

/-- C2 counterexample: two records that share the same `id` but carry
different `(repository, number)` keys.  Upserting the second DELETES
the first's row (SQLite REPLACE resolves the `id INTEGER PRIMARY KEY`
conflict by deleting the old row), so an upsert can remove a stored row
with a different `(repository, number)` pair, refuting the claim. -/
theorem C2_counterexample :
    readBack (savePullRequests 0 [] [{ c10pr with id := 5, repo := "o/r1", number := 1 }])
        "o/r1" 1 = some (rowOfPR 0 { c10pr with id := 5, repo := "o/r1", number := 1 })
    ∧ ({ c10pr with id := 5, repo := "o/r2", number := 2 } : PullRequest).repo ≠ "o/r1"
    ∧ ({ c10pr with id := 5, repo := "o/r2", number := 2 } : PullRequest).number ≠ 1
    ∧ readBack
        (savePullRequests 1
          (savePullRequests 0 [] [{ c10pr with id := 5, repo := "o/r1", number := 1 }])
          [{ c10pr with id := 5, repo := "o/r2", number := 2 }])
        "o/r1" 1 = none := by
  refine ⟨by decide, by decide, by decide, by decide⟩

/-- C2 (amended): upserting a record twice leaves its read-back row
unchanged except the bookkeeping `updated_at`; an upsert under the same
`(repo, number)` key overwrites every mutable field; `(repo, number)`
uniqueness is preserved by every batch; and an upsert only removes a
row with a different `(repository, number)` pair when that row shares
the upserted record's `id` (the table's other uniqueness constraint). -/
theorem C2_upsertSemantics (store : List DBRow) (pr pr' : PullRequest) (t1 t2 : Int)
    (prs : List PullRequest) (q : DBRow) :
    readBack (savePullRequests t1 store [pr]) pr.repo pr.number = some (rowOfPR t1 pr)
    ∧ readBack (savePullRequests t2 (savePullRequests t1 store [pr]) [pr])
        pr.repo pr.number = some (rowOfPR t2 pr)
    ∧ rowOfPR t2 pr = { rowOfPR t1 pr with updated_at := t2 }
    ∧ (pr'.repo = pr.repo → pr'.number = pr.number →
      readBack (savePullRequests t2 (savePullRequests t1 store [pr]) [pr'])
        pr.repo pr.number = some (rowOfPR t2 pr'))
    ∧ (KeyUnique store → KeyUnique (savePullRequests t1 store prs))
    ∧ (q ∈ store → q.id ≠ pr.id → ¬(q.repo = pr.repo ∧ q.number = pr.number) →
      q ∈ savePullRequests t1 store [pr]) := by
  refine ⟨readBack_replaceInto store (rowOfPR t1 pr),
    readBack_replaceInto _ (rowOfPR t2 pr), rfl, ?_, ?_, ?_⟩
  · intro hrepo hnum
    have := readBack_replaceInto (savePullRequests t1 store [pr]) (rowOfPR t2 pr')
    show readBack (replaceInto (savePullRequests t1 store [pr]) (rowOfPR t2 pr'))
      pr.repo pr.number = some (rowOfPR t2 pr')
    rw [← hrepo, ← hnum]
    exact this
  · intro h
    show KeyUnique (prs.foldl (fun s p => replaceInto s (rowOfPR t1 p)) store)
    induction prs generalizing store with
    | nil => exact h
    | cons p ps ih => exact ih _ (KeyUnique_replaceInto _ h)
  · intro hmem hid hkey
    show q ∈ replaceInto store (rowOfPR t1 pr)
    refine List.mem_append_left _ (List.mem_filter.mpr ⟨hmem, ?_⟩)
    simp only [rowConflicts, rowOfPR, Bool.not_eq_eq_eq_not, Bool.not_true,
      Bool.or_eq_false_iff, Bool.and_eq_false_iff]
    constructor
    · simpa using hid
    · by_cases hrepo : q.repo = pr.repo
      · right; simpa using fun hnum => hkey ⟨hrepo, hnum⟩
      · left; simpa using hrepo

/-- C2 witness: the amended statement at a concrete store — full
overwrite under the same key, key uniqueness after a batch, and
survival of an unrelated row with a different id. -/
theorem C2_upsertSemantics_witness :
    readBack
        (savePullRequests 9
          (savePullRequests 3 [rowOfPR 0 c10pr] [{ c10pr with id := 77, title := "v1" }])
          [{ c10pr with id := 77, title := "v2" }])
        c10pr.repo c10pr.number = some (rowOfPR 9 { c10pr with id := 77, title := "v2" })
    ∧ KeyUnique (savePullRequests 3 [rowOfPR 0 c10pr] [{ c10pr with id := 77, title := "v1" }])
    ∧ rowOfPR 0 { c10pr with id := 5, repo := "other/r", number := 9 } ∈
        savePullRequests 3 [rowOfPR 0 { c10pr with id := 5, repo := "other/r", number := 9 }]
          [c10pr] := by
  refine ⟨?_, ?_, ?_⟩
  · exact (C2_upsertSemantics [rowOfPR 0 c10pr] { c10pr with id := 77, title := "v1" }
      { c10pr with id := 77, title := "v2" } 3 9 [] (rowOfPR 0 c10pr)).2.2.2.1 rfl rfl
  · exact (C2_upsertSemantics [rowOfPR 0 c10pr] { c10pr with id := 77, title := "v1" }
      { c10pr with id := 77, title := "v2" } 3 9 [{ c10pr with id := 77, title := "v1" }]
      (rowOfPR 0 c10pr)).2.2.2.2.1 (by simp [KeyUnique])
  · exact (C2_upsertSemantics [rowOfPR 0 { c10pr with id := 5, repo := "other/r", number := 9 }]
      c10pr c10pr 3 9 [] (rowOfPR 0 { c10pr with id := 5, repo := "other/r", number := 9 })).2.2.2.2.2
      (by decide) (by decide) (by decide)

/-! ### Key/Nodup lemmas for the grouping maps -/

theorem mget_eq_none_iff {β : Type} (m : AssocMap β) (k : String) :
    mget m k = none ↔ k ∉ m.map (fun kv => kv.1) := by
  induction m with
  | nil => simp [mget]
  | cons kv rest ih =>
    obtain ⟨k0, v0⟩ := kv
    by_cases h : k0 = k
    · simp [mget_cons, h]
    · simp only [mget_cons, if_neg h, ih, List.map_cons, List.mem_cons]
      constructor
      · intro hk
        rintro (hk0 | hk0)
        · exact h hk0.symm
        · exact hk hk0
      · intro hk hk0
        exact hk (Or.inr hk0)

theorem keys_mset_sub {β : Type} {m : AssocMap β} {k k' : String} {v : β}
    (h : k' ∈ (mset m k v).map (fun kv => kv.1)) :
    k' ∈ m.map (fun kv => kv.1) ∨ k' = k := by
  rcases List.mem_map.mp h with ⟨kv, hkv, hk⟩
  rcases mem_mset hkv with hkv | hkv
  · exact Or.inl (hk ▸ List.mem_map_of_mem _ hkv)
  · right; rw [← hk, hkv]

theorem keysNodup_mset {β : Type} (m : AssocMap β) (k : String) (v : β)
    (h : (m.map (fun kv => kv.1)).Nodup) :
    ((mset m k v).map (fun kv => kv.1)).Nodup := by
  induction m with
  | nil => simp [mset]
  | cons kv rest ih =>
    obtain ⟨k0, v0⟩ := kv
    simp only [List.map_cons, List.nodup_cons] at h
    by_cases h0 : k0 = k
    · simp only [mset, h0, if_true, List.map_cons, List.nodup_cons]
      exact ⟨h0 ▸ h.1, h.2⟩
    · simp only [mset, h0, if_false, List.map_cons, List.nodup_cons]
      refine ⟨?_, ih h.2⟩
      intro hmem
      rcases keys_mset_sub hmem with hmem | hmem
      · exact h.1 hmem
      · exact h0 hmem

theorem mget_of_mem_nodup {β : Type} {m : AssocMap β} {k : String} {d : β}
    (hmem : (k, d) ∈ m) (hnd : (m.map (fun kv => kv.1)).Nodup) :
    mget m k = some d := by
  induction m with
  | nil => simp at hmem
  | cons kv rest ih =>
    obtain ⟨k0, v0⟩ := kv
    simp only [List.map_cons, List.nodup_cons] at hnd
    rcases List.mem_cons.mp hmem with h | h
    · rw [mget_cons]
      obtain ⟨hk, hv⟩ := Prod.mk.injEq .. ▸ h
      simp only [Prod.mk.injEq] at h
      simp [h.1, h.2]
    · have hk : k ∈ rest.map (fun kv => kv.1) :=
        List.mem_map_of_mem _ h
      have hne : k0 ≠ k := fun he => hnd.1 (he ▸ hk)
      rw [mget_cons, if_neg hne]
      exact ih h hnd.2

/-! ### Claim C7 — per-contributor language re-derivation -/

/-- Grouping one author's PR list the way the contributor-map loop does:
first PR creates the entry, later PRs update it in place. -/
def groupOpt (l : List PullRequest) : Option CData :=
  match l with
  | [] => none
  | p :: ps => some (ps.foldl updC (initC p))

theorem groupOpt_eq_none {l : List PullRequest} : groupOpt l = none ↔ l = [] := by
  cases l <;> simp [groupOpt]

/-- The contributor map built by one pass with in-place updates holds,
under each author key, exactly the fold of that author's own PR sublist. -/
theorem mget_contribMap (prs : List PullRequest) (u : String) :
    mget (contribMap prs) u = groupOpt (prs.filter (fun p => p.author == u)) := by
  induction prs using List.reverseRecOn with
  | nil => rfl
  | append_singleton prs pr ih =>
    have hstep : contribMap (prs ++ [pr]) = contribStep (contribMap prs) pr := by
      simp [contribMap, List.foldl_append]
    rw [hstep, List.filter_append]
    by_cases ha : pr.author = u
    · subst ha
      rw [contribStep]
      cases hm : mget (contribMap prs) pr.author with
      | none =>
        have hemp : prs.filter (fun p => p.author == pr.author) = [] :=
          groupOpt_eq_none.mp (hm ▸ ih.symm)
        rw [mget_mset_self, hemp]
        simp [groupOpt]
      | some ex =>
        rw [mget_mset_self]
        rw [ih] at hm
        cases hf : prs.filter (fun p => p.author == pr.author) with
        | nil => rw [hf] at hm; simp [groupOpt] at hm
        | cons p ps =>
          rw [hf] at hm
          simp only [groupOpt, Option.some.injEq] at hm
          simp [groupOpt, List.foldl_append, hm]
    · have hne : pr.author ≠ u := ha
      rw [contribStep]
      cases hm : mget (contribMap prs) pr.author with
      | none =>
        rw [mget_mset_ne _ _ _ _ hne, ih]
        simp [ha]
      | some ex =>
        rw [mget_mset_ne _ _ _ _ hne, ih]
        simp [ha]

/-- The keys of the contributor map never repeat. -/
theorem keysNodup_contribMap (prs : List PullRequest) :
    ((contribMap prs).map (fun kv => kv.1)).Nodup := by
  suffices h : ∀ (l : List PullRequest) (acc : AssocMap CData),
      (acc.map (fun kv => kv.1)).Nodup →
      ((l.foldl contribStep acc).map (fun kv => kv.1)).Nodup by
    exact h prs [] (by simp)
  intro l
  induction l with
  | nil => intro acc h; simpa using h
  | cons pr rest ih =>
    intro acc h
    refine ih _ ?_
    rw [contribStep]
    cases mget acc pr.author <;> exact keysNodup_mset _ _ _ h

theorem username_foldl_updC (l : List PullRequest) (c : CData) :
    (l.foldl updC c).username = c.username := by
  induction l generalizing c with
  | nil => rfl
  | cons pr rest ih => simpa [updC] using ih (updC c pr)

theorem languageLines_foldl_updC (l : List PullRequest) (c : CData) :
    (l.foldl updC c).languageLines =
      l.foldl (fun a pr => addPrLangLines a pr) c.languageLines := by
  induction l generalizing c with
  | nil => rfl
  | cons pr rest ih => simpa [updC] using ih (updC c pr)

/-- With no duplicate keys in a PR's language map, the plain-assignment
initial object equals the `(… || 0) +`-accumulating one. -/
theorem prLangLinesInit_eq_add (pr : PullRequest)
    (hnd : ∀ ls, pr.languages = some ls → (ls.map (fun kv => kv.1)).Nodup) :
    prLangLinesInit pr = addPrLangLines [] pr := by
  unfold prLangLinesInit addPrLangLines
  cases hl : pr.languages with
  | none => rfl
  | some ls =>
    have hnd' := hnd ls hl
    suffices h : ∀ (l : List (String × ℚ)) (acc : AssocMap ℚ),
        (∀ kv ∈ l, mget acc kv.1 = none) → (l.map (fun kv => kv.1)).Nodup →
        l.foldl (fun m kv => mset m kv.1 (langLineEstimate pr kv.2)) acc =
          l.foldl (fun m kv => mset m kv.1 (mgetD m kv.1 0 + langLineEstimate pr kv.2)) acc by
      exact h ls [] (by simp [mget]) hnd'
    intro l
    induction l with
    | nil => intro acc _ _; rfl
    | cons kv0 rest ih =>
      intro acc hnone hnd0
      simp only [List.map_cons, List.nodup_cons] at hnd0
      have h0 : mgetD acc kv0.1 0 = 0 := by
        simp [mgetD, hnone kv0 (List.mem_cons_self _ _)]
      simp only [List.foldl_cons, h0, zero_add]
      refine ih _ ?_ hnd0.2
      intro kv hkv
      have hne : kv0.1 ≠ kv.1 := by
        intro he
        exact hnd0.1 (he ▸ List.mem_map_of_mem _ hkv)
      rw [mget_mset_ne _ _ _ _ hne]
      exact hnone kv (List.mem_cons_of_mem _ hkv)

/-- The conversion of accumulated language lines into rounded
percentages (shared by `convertC` and the spec-side re-derivation). -/
def statsOfLines (lines : AssocMap ℚ) : Option (AssocMap ℚ) :=
  let totalLines : ℚ := (mvalues lines).foldl (· + ·) 0
  let languageStats : AssocMap ℚ :=
    if 0 < totalLines then
      lines.foldl (fun st kv => mset st kv.1 (jsRound (kv.2 / totalLines * 100))) []
    else []
  if 0 < languageStats.length then some languageStats else none

/-- Spec-side definition, following the specification's words: for each
owned PR convert each language percentage back into a line estimate
`round(pct/100 × (additions+deletions))`, sum the estimates across the
owned PRs, then re-derive percentages from the summed estimates. -/
def specLangStats (owned : List PullRequest) : Option (AssocMap ℚ) :=
  statsOfLines (owned.foldl (fun acc pr => addPrLangLines acc pr) [])

/-- First PR of the claim's example: 100% Python over 100 changed lines. -/
def c7pr1 : PullRequest :=
  { id := 1
    number := 1
    title := "p1"
    author := "alice"
    authorAvatar := ""
    state := .opened
    createdAt := ⟨2025, 7, 1⟩
    mergedAt := none
    closedAt := none
    additions := 100
    deletions := 0
    changedFiles := 1
    size := .M
    url := ""
    repo := "octo/repo"
    languages := some [("Python", 100)]
    reviewCount := none
    reviews := none
    complexity := some 10 }

/-- Second PR of the claim's example: 50% Python / 50% JSON over 200
changed lines. -/
def c7pr2 : PullRequest :=
  { c7pr1 with
    id := 2
    number := 2
    title := "p2"
    additions := 200
    languages := some [("Python", 50), ("JSON", 50)]
    complexity := some 20 }

/-- The single contributor produced for the claim's example. -/
def c7contrib : ContributorStats :=
  { username := "alice"
    avatar := ""
    totalPRs := 2
    mergedPRs := 0
    sizeDistribution := ⟨0, 0, 2, 0, 0, 0⟩
    additions := 300
    deletions := 0
    prs := [c7pr1, c7pr2]
    languageStats := some [("Python", 67), ("JSON", 33)]
    avgComplexity := some 15 }

/-- Concrete evaluation of the example: Python ends at 67% (the
line-weighted re-derivation `round(200/300 × 100)`), not the arithmetic
mean 75 of the two per-PR percentages. -/
theorem c7_eval : aggregateByContributor [c7pr1, c7pr2] = [c7contrib] := by
  have hPJ : ("Python" : String) ≠ "JSON" := by decide
  have h1 : contribMap [c7pr1, c7pr2] =
      [("alice", (updC (initC c7pr1) c7pr2))] := by
    simp [contribMap, contribStep, mget, mset, c7pr1, c7pr2, List.find?]
  rw [aggregateByContributor, h1]
  have h2 : convertC (updC (initC c7pr1) c7pr2) = c7contrib := by
    have hlines : (updC (initC c7pr1) c7pr2).languageLines =
        [("Python", 200), ("JSON", 100)] := by
      simp only [updC, initC, prLangLinesInit, addPrLangLines, c7pr1, c7pr2]
      norm_num [mset, mgetD, mget, List.find?, langLineEstimate, jsRound, round_eq, hPJ]
    rw [convertC, hlines]
    norm_num [mvalues, mset, mgetD, mget, List.find?, jsRound, round_eq, updC, initC,
      c7pr1, c7pr2, c7contrib, prLangLinesInit, langLineEstimate, hPJ]
    all_goals decide
  simp [mvalues, h2, List.insertionSort, List.orderedInsert]

/-- C7: every contributor's language percentages are re-derived from
line estimates summed across that contributor's own PRs (the map-based
single pass agrees with the per-author fold over the filtered record
list), and on the claim's concrete example Python = 67, not 75. -/
theorem C7_contributorLanguageStats (prs : List PullRequest)
    (hwf : ∀ pr ∈ prs, ∀ ls, pr.languages = some ls → (ls.map (fun kv => kv.1)).Nodup)
    (c : ContributorStats) (hc : c ∈ aggregateByContributor prs) :
    c.languageStats = specLangStats (prs.filter (fun p => p.author == c.username))
    ∧ (aggregateByContributor [c7pr1, c7pr2]).map (fun c => c.languageStats) =
      [some [("Python", 67), ("JSON", 33)]] := by
  constructor
  · have hc' : c ∈ ((mvalues (contribMap prs)).map convertC) :=
      (List.mem_insertionSort _).mp hc
    obtain ⟨d, hd, hcd⟩ := List.mem_map.mp hc'
    obtain ⟨kv, hkv0, hkvd⟩ := List.mem_map.mp hd
    set k := kv.1 with hk
    have hkv : (k, d) ∈ contribMap prs := by
      rw [← hkvd]
      simpa using hkv0
    have hmg : mget (contribMap prs) k = some d :=
      mget_of_mem_nodup hkv (keysNodup_contribMap prs)
    rw [mget_contribMap] at hmg
    cases hf : prs.filter (fun p => p.author == k) with
    | nil => rw [hf] at hmg; simp [groupOpt] at hmg
    | cons p ps =>
      rw [hf] at hmg
      simp only [groupOpt, Option.some.injEq] at hmg
      have hpmem : p ∈ prs.filter (fun p => p.author == k) := by
        rw [hf]; exact List.mem_cons_self _ _
      have hpin : p ∈ prs := (List.mem_filter.mp hpmem).1
      have hpauthor : p.author = k := by
        have := (List.mem_filter.mp hpmem).2
        simpa using this
      have huser : d.username = k := by
        rw [← hmg, username_foldl_updC]
        simpa [initC] using hpauthor
      have hcuser : c.username = k := by
        rw [← hcd]
        simpa [convertC] using huser
      have hlines : d.languageLines =
          (p :: ps).foldl (fun acc pr => addPrLangLines acc pr) [] := by
        rw [← hmg, languageLines_foldl_updC]
        have : (initC p).languageLines = addPrLangLines [] p := by
          simpa [initC] using
            prLangLinesInit_eq_add p (fun ls hls => hwf p hpin ls hls)
        simp [this]
      have hstats : c.languageStats = statsOfLines d.languageLines := by
        rw [← hcd]; rfl
      rw [hstats, hcuser, hf, specLangStats, hlines]
  · rw [c7_eval]
    rfl

/-- C7 witness: the general statement applied to the two-PR example. -/
theorem C7_contributorLanguageStats_witness :
    c7contrib.languageStats =
      specLangStats ([c7pr1, c7pr2].filter (fun p => p.author == c7contrib.username)) :=
  (C7_contributorLanguageStats [c7pr1, c7pr2]
    (by
      intro pr hpr ls hls
      fin_cases hpr <;>
        simp only [c7pr1, c7pr2, Option.some.injEq] at hls <;>
        subst hls <;> decide)
    c7contrib (by rw [c7_eval]; exact List.mem_singleton_self _)).1

/-! ### Claim C8 — timeline bucketing -/

theorem date_bumpT (t : TimelineData) (sz : PRSize) : (bumpT t sz).date = t.date := by
  cases sz <;> rfl

theorem count_bumpT (t : TimelineData) (sz : PRSize) : (bumpT t sz).count = t.count + 1 := by
  cases sz <;> rfl

/-- Overwriting an existing key with a value of the same projection
leaves the (key, projection) list unchanged. -/
theorem pairs_mset_of_mget {β γ : Type} (f : β → γ) (m : AssocMap β) (k : String)
    (v t : β) (h : mget m k = some t) (hf : f v = f t) :
    (mset m k v).map (fun kv => (kv.1, f kv.2)) = m.map (fun kv => (kv.1, f kv.2)) := by
  induction m with
  | nil => simp [mget] at h
  | cons kv0 rest ih =>
    obtain ⟨k0, v0⟩ := kv0
    by_cases h0 : k0 = k
    · rw [mget_cons, if_pos h0] at h
      obtain rfl : v0 = t := by simpa using h
      simp [mset, h0, hf]
    · rw [mget_cons, if_neg h0] at h
      simp [mset, h0, ih h]

theorem timelineAgg_cons (s e : CalDate) (pr : PullRequest) (rest : List PullRequest)
    (m : AssocMap TimelineData) :
    timelineAgg s e m (pr :: rest) =
      timelineAgg s e
        (match mget m (timelineKey s e pr) with
          | some t => mset m (timelineKey s e pr) (bumpT t pr.size)
          | none => m) rest := rfl

/-- The aggregation phase never adds, removes, re-orders or re-labels
buckets. -/
theorem timelineAgg_pairs (s e : CalDate) (prs : List PullRequest) (m : AssocMap TimelineData) :
    (timelineAgg s e m prs).map (fun kv => (kv.1, kv.2.date)) =
      m.map (fun kv => (kv.1, kv.2.date)) := by
  induction prs generalizing m with
  | nil => rfl
  | cons pr rest ih =>
    rw [timelineAgg_cons]
    cases hmg : mget m (timelineKey s e pr) with
    | none =>
      simp only [hmg]
      exact ih m
    | some t =>
      simp only [hmg]
      rw [ih]
      exact pairs_mset_of_mget _ m _ _ t hmg (date_bumpT t pr.size)

/-- Bucket lookups are unchanged by a bump of an existing bucket. -/
theorem isSome_mget_mset_bump (m : AssocMap TimelineData) (k k' : String)
    (v : TimelineData) :
    k ∈ m.map (fun kv => kv.1) →
    (mget (mset m k v) k').isSome = (mget m k').isSome := by
  intro hk
  by_cases h : k = k'
  · subst h
    rw [mget_mset_self]
    rcases hm : mget m k with _ | t
    · exact absurd ((mget_eq_none_iff m k).mp hm) (fun hc => hc hk)
    · rfl
  · rw [mget_mset_ne _ _ _ _ h]

theorem mget_isSome_iff (m : AssocMap TimelineData) (k : String) :
    (mget m k).isSome = true ↔ k ∈ m.map (fun kv => kv.1) := by
  rcases hm : mget m k with _ | t
  · simpa using (mget_eq_none_iff m k).mp hm
  · simp only [Option.isSome_some, true_iff]
    by_contra hk
    rw [(mget_eq_none_iff m k).mpr hk] at hm
    exact Option.noConfusion hm

/-- Bumping an existing bucket raises the total count by exactly one. -/
theorem sum_counts_mset_bump (m : AssocMap TimelineData) (k : String)
    (t : TimelineData) (sz : PRSize) (h : mget m k = some t) :
    ((mvalues (mset m k (bumpT t sz))).map (fun b => b.count)).sum =
      ((mvalues m).map (fun b => b.count)).sum + 1 := by
  induction m with
  | nil => simp [mget] at h
  | cons kv0 rest ih =>
    obtain ⟨k0, v0⟩ := kv0
    by_cases h0 : k0 = k
    · rw [mget_cons, if_pos h0] at h
      obtain rfl : v0 = t := by simpa using h
      simp only [mset, h0, if_true, mvalues, List.map_cons, List.sum_cons, count_bumpT]
      omega
    · rw [mget_cons, if_neg h0] at h
      simp only [mset, h0, if_false, mvalues, List.map_cons, List.sum_cons]
      rw [show ((mset rest k (bumpT t sz)).map (fun kv => kv.2)).map (fun b => b.count) =
        (mvalues (mset rest k (bumpT t sz))).map (fun b => b.count) from rfl]
      rw [ih h]
      simp only [mvalues]
      omega

/-- The total of all bucket counts equals the number of records whose
key hits a pre-created bucket; the rest are silently dropped. -/
theorem sum_counts_timelineAgg (s e : CalDate) (prs : List PullRequest)
    (m : AssocMap TimelineData) :
    ((mvalues (timelineAgg s e m prs)).map (fun b => b.count)).sum =
      ((mvalues m).map (fun b => b.count)).sum +
        (prs.filter (fun pr => (mget m (timelineKey s e pr)).isSome)).length := by
  induction prs generalizing m with
  | nil => simp [timelineAgg]
  | cons pr rest ih =>
    rw [timelineAgg_cons]
    cases hmg : mget m (timelineKey s e pr) with
    | none =>
      simp only [hmg]
      rw [ih m]
      have : (List.filter (fun pr => (mget m (timelineKey s e pr)).isSome) (pr :: rest)) =
          List.filter (fun pr => (mget m (timelineKey s e pr)).isSome) rest := by
        rw [List.filter_cons]
        simp [hmg]
      rw [this]
    | some t =>
      simp only [hmg]
      rw [ih]
      have hkeys : timelineKey s e pr ∈ m.map (fun kv => kv.1) :=
        (mget_isSome_iff m _).mp (by rw [hmg]; rfl)
      have hfilter : List.filter
          (fun pr' => (mget (mset m (timelineKey s e pr) (bumpT t pr.size))
            (timelineKey s e pr')).isSome) rest =
          List.filter (fun pr' => (mget m (timelineKey s e pr')).isSome) rest := by
        apply List.filter_congr
        intro pr' _
        exact isSome_mget_mset_bump m _ _ _ hkeys
      rw [hfilter, sum_counts_mset_bump m _ t pr.size hmg]
      have hcons : (List.filter (fun pr' => (mget m (timelineKey s e pr')).isSome)
          (pr :: rest)).length =
          (List.filter (fun pr' => (mget m (timelineKey s e pr')).isSome) rest).length + 1 := by
        rw [List.filter_cons]
        simp [hmg]
      omega

theorem mset_eq_append {β : Type} (m : AssocMap β) (k : String) (v : β)
    (h : k ∉ m.map (fun kv => kv.1)) : mset m k v = m ++ [(k, v)] := by
  induction m with
  | nil => rfl
  | cons kv0 rest ih =>
    obtain ⟨k0, v0⟩ := kv0
    simp only [List.map_cons, List.mem_cons, not_or] at h
    rw [mset, if_neg (fun he => h.1 he.symm), ih h.2]
    rfl

/-- Folding `mset`s of pairwise-distinct fresh keys just appends the
entries in order. -/
theorem foldl_mset_append {α β : Type} (key : α → String) (val : α → β) :
    ∀ (l : List α) (acc : AssocMap β),
      (acc.map (fun kv => kv.1) ++ l.map key).Nodup →
      l.foldl (fun m z => mset m (key z) (val z)) acc =
        acc ++ l.map (fun z => (key z, val z)) := by
  intro l
  induction l with
  | nil => intro acc _; simp
  | cons z zs ih =>
    intro acc h
    have hkz : key z ∉ acc.map (fun kv => kv.1) := by
      intro hmem
      exact (List.disjoint_of_nodup_append h) hmem (List.mem_cons_self _ _)
    have hstep : mset acc (key z) (val z) = acc ++ [(key z, val z)] :=
      mset_eq_append _ _ _ hkz
    rw [List.foldl_cons, hstep, ih]
    · simp
    · rw [List.map_append]
      have : (acc.map (fun kv => kv.1) ++ [(key z, val z)].map (fun kv => kv.1)) ++
          zs.map key = acc.map (fun kv => kv.1) ++ (key z :: zs.map key) := by
        rw [List.append_assoc]; rfl
      rw [this]
      exact h

/-- With injective bucket labels, the pre-created bucket map lists one
zero bucket per interval, in order. -/
theorem timelineInit_eq (s e : CalDate)
    (hnd : ((timelineIntervals s e).map (timelineFormat s e)).Nodup) :
    timelineInit s e = (timelineIntervals s e).map
      (fun z => (timelineFormat s e z,
        ⟨timelineFormat s e z, 0, 0, 0, 0, 0, 0, 0⟩)) := by
  have h := foldl_mset_append (fun z => timelineFormat s e z)
    (fun z => (⟨timelineFormat s e z, 0, 0, 0, 0, 0, 0, 0⟩ : TimelineData))
    (timelineIntervals s e) [] (by simpa using hnd)
  simpa [timelineInit] using h

theorem mem_mvalues_mset {β : Type} {m : AssocMap β} {k : String} {v t : β}
    (h : t ∈ mvalues (mset m k v)) : t ∈ mvalues m ∨ t = v := by
  rcases List.mem_map.mp h with ⟨kv, hkv, hkvt⟩
  rcases mem_mset hkv with hkv | hkv
  · exact Or.inl (hkvt ▸ List.mem_map_of_mem _ hkv)
  · right; rw [← hkvt, hkv]

/-- Every pre-created bucket starts with all counters zero. -/
theorem timelineInit_values_zero (s e : CalDate) :
    ∀ t ∈ mvalues (timelineInit s e),
      t.count = 0 ∧ t.XS = 0 ∧ t.S = 0 ∧ t.M = 0 ∧ t.L = 0 ∧ t.XL = 0 ∧ t.XXL = 0 := by
  unfold timelineInit
  suffices h : ∀ (l : List Int) (acc : AssocMap TimelineData),
      (∀ t ∈ mvalues acc,
        t.count = 0 ∧ t.XS = 0 ∧ t.S = 0 ∧ t.M = 0 ∧ t.L = 0 ∧ t.XL = 0 ∧ t.XXL = 0) →
      ∀ t ∈ mvalues (l.foldl (fun m z =>
        mset m (timelineFormat s e z)
          (⟨timelineFormat s e z, 0, 0, 0, 0, 0, 0, 0⟩ : TimelineData)) acc),
        t.count = 0 ∧ t.XS = 0 ∧ t.S = 0 ∧ t.M = 0 ∧ t.L = 0 ∧ t.XL = 0 ∧ t.XXL = 0 by
    exact h _ [] (by simp [mvalues])
  intro l
  induction l with
  | nil => intro acc hacc; simpa using hacc
  | cons z zs ih =>
    intro acc hacc
    refine ih _ ?_
    intro t ht
    rcases mem_mvalues_mset ht with ht | ht
    · exact hacc t ht
    · simp [ht]

/-- C8: bucket width is daily for spans ≤ 31 days, weekly for ≤ 180,
monthly otherwise; the buckets of the output are exactly the pre-created
per-interval buckets whatever the records are (for an empty record list
they all carry zero counts — a 10-day window yields exactly 10 daily
buckets); records whose key misses every pre-created bucket are dropped
from the timeline counts while `analyzeResults` still counts them in
`totalPRs`. -/
theorem C8_timelineBuckets (prs : List PullRequest) (repos : List String) (s e : CalDate)
    (hnd : ((timelineIntervals s e).map (timelineFormat s e)).Nodup) :
    (differenceInDays e s ≤ 31 → timelineIntervals s e = eachDayOfInterval s e)
    ∧ (31 < differenceInDays e s → differenceInDays e s ≤ 180 →
        timelineIntervals s e = eachWeekOfInterval s e)
    ∧ (180 < differenceInDays e s → timelineIntervals s e = eachMonthOfInterval s e)
    ∧ ((aggregateTimeline prs s e).map (fun t => t.date)).Perm
        ((timelineIntervals s e).map (timelineFormat s e))
    ∧ (∀ t ∈ aggregateTimeline [] s e,
        t.count = 0 ∧ t.XS = 0 ∧ t.S = 0 ∧ t.M = 0 ∧ t.L = 0 ∧ t.XL = 0 ∧ t.XXL = 0)
    ∧ ((aggregateTimeline prs s e).map (fun t => t.count)).sum =
        (prs.filter (fun pr => (mget (timelineInit s e) (timelineKey s e pr)).isSome)).length
    ∧ (analyzeResults prs repos s e).totalPRs = prs.length
    ∧ (aggregateTimeline [] ⟨2025, 7, 1⟩ ⟨2025, 7, 10⟩).length = 10 := by
  refine ⟨?_, ?_, ?_, ?_, ?_, ?_, ?_, by decide⟩
  · intro h
    simp [timelineIntervals, h]
  · intro h1 h2
    have h1' : ¬differenceInDays e s ≤ 31 := by omega
    simp [timelineIntervals, h1', h2]
  · intro h1
    have h1' : ¬differenceInDays e s ≤ 31 := by omega
    have h2' : ¬differenceInDays e s ≤ 180 := by omega
    simp [timelineIntervals, h1', h2']
  · have hpairs := timelineAgg_pairs s e prs (timelineInit s e)
    have hdates : (mvalues (timelineAgg s e (timelineInit s e) prs)).map (fun t => t.date) =
        (mvalues (timelineInit s e)).map (fun t => t.date) := by
      have h2 := congrArg (List.map Prod.snd) hpairs
      simpa [List.map_map, Function.comp_def, mvalues] using h2
    have hperm : ((aggregateTimeline prs s e).map (fun t => t.date)).Perm
        ((mvalues (timelineAgg s e (timelineInit s e) prs)).map (fun t => t.date)) :=
      (List.perm_insertionSort _ _).map _
    rw [hdates, timelineInit_eq s e hnd] at hperm
    have hmv : (mvalues ((timelineIntervals s e).map
        (fun z => (timelineFormat s e z,
          (⟨timelineFormat s e z, 0, 0, 0, 0, 0, 0, 0⟩ : TimelineData))))).map
          (fun t => t.date) =
        (timelineIntervals s e).map (timelineFormat s e) := by
      simp [mvalues, List.map_map, Function.comp_def]
    rw [hmv] at hperm
    exact hperm
  · intro t ht
    have ht' : t ∈ mvalues (timelineInit s e) :=
      (List.mem_insertionSort _).mp ht
    exact timelineInit_values_zero s e t ht'
  · have hzero : ((mvalues (timelineInit s e)).map (fun b => b.count)).sum = 0 := by
      apply List.sum_eq_zero
      intro x hx
      rcases List.mem_map.mp hx with ⟨t, ht, hxt⟩
      rw [← hxt]
      exact (timelineInit_values_zero s e t ht).1
    have hperm2 : ((aggregateTimeline prs s e).map (fun t => t.count)).sum =
        ((mvalues (timelineAgg s e (timelineInit s e) prs)).map (fun t => t.count)).sum :=
      ((List.perm_insertionSort _ _).map _).sum_eq
    rw [hperm2, sum_counts_timelineAgg, hzero, Nat.zero_add]
  · show (prs.map annotateComplexity).length = prs.length
    exact List.length_map _ _

/-- C8 witness: a 10-day July 2025 window selects daily buckets. -/
theorem C8_timelineBuckets_witness :
    timelineIntervals ⟨2025, 7, 1⟩ ⟨2025, 7, 10⟩ =
      eachDayOfInterval ⟨2025, 7, 1⟩ ⟨2025, 7, 10⟩ :=
  (C8_timelineBuckets [] [] ⟨2025, 7, 1⟩ ⟨2025, 7, 10⟩ (by decide)).1 (by decide)

/-! ### Claim C1 — FilterEngine versus a fresh aggregation -/

theorem annotate_eq_self (pr : PullRequest) (h : pr.complexity.isSome) :
    annotateComplexity pr = pr := by
  rcases hc : pr.complexity with _ | c
  · rw [hc] at h; exact absurd h (by simp)
  · cases pr
    simp_all [annotateComplexity]

theorem map_annotate_id (l : List PullRequest) (h : ∀ pr ∈ l, pr.complexity.isSome) :
    l.map annotateComplexity = l := by
  induction l with
  | nil => rfl
  | cons pr rest ih =>
    rw [List.map_cons, annotate_eq_self pr (h pr (List.mem_cons_self _ _)),
      ih (fun pr hpr => h pr (List.mem_cons_of_mem _ hpr))]

theorem analyzeResults_prs_isSome (prs : List PullRequest) (repos : List String)
    (s e : CalDate) :
    ∀ pr ∈ (analyzeResults prs repos s e).prs, pr.complexity.isSome := by
  intro pr hpr
  rcases List.mem_map.mp hpr with ⟨x, _, hx⟩
  rw [← hx]
  rfl

theorem mem_of_mem_fullyFiltered {RF CF : List String} {SF : List PRSize}
    {l : List PullRequest} {pr : PullRequest}
    (h : pr ∈ fullyFilteredPRs RF CF SF l) : pr ∈ l := by
  unfold fullyFilteredPRs sizeFilteredPRs contributorFilteredPRs repoFilteredPRs at h
  have h1 := (List.mem_filter.mp h).1
  split at h1
  · have h2 := (List.mem_filter.mp h1).1
    split at h2
    · exact (List.mem_filter.mp h2).1
    · exact h2
  · split at h1
    · exact (List.mem_filter.mp h1).1
    · exact h1

/-- Every record surviving the filter pipeline of a previously analyzed
result still carries its complexity annotation. -/
theorem fullyFiltered_annotate_id (RF CF : List String) (SF : List PRSize)
    (prs : List PullRequest) (repos : List String) (s e : CalDate) :
    (fullyFilteredPRs RF CF SF (analyzeResults prs repos s e).prs).map annotateComplexity =
      fullyFilteredPRs RF CF SF (analyzeResults prs repos s e).prs :=
  map_annotate_id _ (fun pr hpr =>
    analyzeResults_prs_isSome prs repos s e pr (mem_of_mem_fullyFiltered hpr))

/-- Projection dropping the two fields `filteredData` rebuilds
differently (`languageStats` is re-sorted, `avgComplexity` is dropped). -/
def coreC (c : ContributorStats) : ContributorStats :=
  { c with languageStats := none, avgComplexity := none }

theorem coreC_fdConvertC (d : CData) : coreC (fdConvertC d) = coreC (convertC d) := rfl

theorem map_coreC_orderedInsert (a : ContributorStats) (l : List ContributorStats) :
    (List.orderedInsert (fun a b => b.totalPRs ≤ a.totalPRs) a l).map coreC =
      List.orderedInsert (fun a b => b.totalPRs ≤ a.totalPRs) (coreC a) (l.map coreC) := by
  induction l with
  | nil => rfl
  | cons b rest ih =>
    by_cases h : b.totalPRs ≤ a.totalPRs
    · simp [List.orderedInsert, h, coreC]
    · simp only [List.orderedInsert, h, if_false, List.map_cons]
      have h' : ¬(coreC b).totalPRs ≤ (coreC a).totalPRs := h
      simp only [List.orderedInsert, h', if_false, ih]

theorem map_coreC_insertionSort (l : List ContributorStats) :
    (List.insertionSort (fun a b => b.totalPRs ≤ a.totalPRs) l).map coreC =
      List.insertionSort (fun a b => b.totalPRs ≤ a.totalPRs) (l.map coreC) := by
  induction l with
  | nil => rfl
  | cons a rest ih =>
    simp only [List.insertionSort, map_coreC_orderedInsert, ih]

/-- Modulo `coreC`, the contributor list rebuilt by `filteredData`
agrees with the analyzer's. -/
theorem fdContributors_coreC (prs : List PullRequest) :
    (fdContributors prs).map coreC = (aggregateByContributor prs).map coreC := by
  unfold fdContributors aggregateByContributor
  rw [map_coreC_insertionSort, map_coreC_insertionSort, List.map_map, List.map_map]
  rfl

theorem fdLanguageDistribution_eq : fdLanguageDistribution = aggregateLanguageDistribution := rfl

theorem fdReviewers_eq : fdReviewers = aggregateByReviewer := rfl

theorem sizeFiltered_all (l : List PullRequest) : sizeFilteredPRs ALL_SIZES l = l :=
  List.filter_eq_self.mpr (fun pr _ => by cases hp : pr.size <;> simp [ALL_SIZES, hp])

theorem contribFiltered_nil (l : List PullRequest) : contributorFilteredPRs [] l = l := rfl

theorem repoFiltered_all (RF : List String) (l : List PullRequest)
    (hall : ∀ pr ∈ l, RF.contains pr.repo = true) : repoFilteredPRs RF l = l := by
  unfold repoFilteredPRs
  split
  · exact List.filter_eq_self.mpr hall
  · rfl

/-- A filter triple that passes everything leaves the record list
unchanged. -/
theorem fullyFiltered_allpass (RF : List String) (l : List PullRequest)
    (hall : ∀ pr ∈ l, RF.contains pr.repo = true) :
    fullyFilteredPRs RF [] ALL_SIZES l = l := by
  unfold fullyFilteredPRs
  rw [repoFiltered_all RF l hall, contribFiltered_nil, sizeFiltered_all]

set_option maxHeartbeats 1600000 in
/-- C1 (amended): for every filter triple, the refiltered result agrees
with a fresh `analyzeResults` call over the filtered record set on every
field EXCEPT the timeline (recomputed from a date-string prefix
heuristic) and the contributors' `avgComplexity` / `languageStats`
presentation (dropped resp. re-sorted by `filteredData`); contributors
agree modulo those two fields.  With an all-pass triple the refiltered
result likewise agrees with the original on those same fields. -/
theorem C1_filterEngine (RF CF : List String) (SF : List PRSize)
    (prs : List PullRequest) (repos : List String) (s e : CalDate) :
    ((filteredData RF CF SF (analyzeResults prs repos s e)).totalPRs =
      (analyzeResults (fullyFilteredPRs RF CF SF (analyzeResults prs repos s e).prs)
        repos s e).totalPRs
    ∧ (filteredData RF CF SF (analyzeResults prs repos s e)).mergedPRs =
      (analyzeResults (fullyFilteredPRs RF CF SF (analyzeResults prs repos s e).prs)
        repos s e).mergedPRs
    ∧ (filteredData RF CF SF (analyzeResults prs repos s e)).openPRs =
      (analyzeResults (fullyFilteredPRs RF CF SF (analyzeResults prs repos s e).prs)
        repos s e).openPRs
    ∧ (filteredData RF CF SF (analyzeResults prs repos s e)).closedPRs =
      (analyzeResults (fullyFilteredPRs RF CF SF (analyzeResults prs repos s e).prs)
        repos s e).closedPRs
    ∧ (filteredData RF CF SF (analyzeResults prs repos s e)).uniqueContributors =
      (analyzeResults (fullyFilteredPRs RF CF SF (analyzeResults prs repos s e).prs)
        repos s e).uniqueContributors
    ∧ (filteredData RF CF SF (analyzeResults prs repos s e)).prs =
      (analyzeResults (fullyFilteredPRs RF CF SF (analyzeResults prs repos s e).prs)
        repos s e).prs
    ∧ (filteredData RF CF SF (analyzeResults prs repos s e)).sizeDistribution =
      (analyzeResults (fullyFilteredPRs RF CF SF (analyzeResults prs repos s e).prs)
        repos s e).sizeDistribution
    ∧ (filteredData RF CF SF (analyzeResults prs repos s e)).languageDistribution =
      (analyzeResults (fullyFilteredPRs RF CF SF (analyzeResults prs repos s e).prs)
        repos s e).languageDistribution
    ∧ ((filteredData RF CF SF (analyzeResults prs repos s e)).contributors).map coreC =
      ((analyzeResults (fullyFilteredPRs RF CF SF (analyzeResults prs repos s e).prs)
        repos s e).contributors).map coreC
    ∧ (filteredData RF CF SF (analyzeResults prs repos s e)).reviewers =
      (analyzeResults (fullyFilteredPRs RF CF SF (analyzeResults prs repos s e).prs)
        repos s e).reviewers
    ∧ (filteredData RF CF SF (analyzeResults prs repos s e)).totalReviews =
      (analyzeResults (fullyFilteredPRs RF CF SF (analyzeResults prs repos s e).prs)
        repos s e).totalReviews
    ∧ (filteredData RF CF SF (analyzeResults prs repos s e)).avgComplexity =
      (analyzeResults (fullyFilteredPRs RF CF SF (analyzeResults prs repos s e).prs)
        repos s e).avgComplexity)
    ∧ ((∀ pr ∈ (analyzeResults prs repos s e).prs, RF.contains pr.repo = true) →
      (filteredData RF [] ALL_SIZES (analyzeResults prs repos s e)).totalPRs =
        (analyzeResults prs repos s e).totalPRs
      ∧ (filteredData RF [] ALL_SIZES (analyzeResults prs repos s e)).mergedPRs =
        (analyzeResults prs repos s e).mergedPRs
      ∧ (filteredData RF [] ALL_SIZES (analyzeResults prs repos s e)).openPRs =
        (analyzeResults prs repos s e).openPRs
      ∧ (filteredData RF [] ALL_SIZES (analyzeResults prs repos s e)).closedPRs =
        (analyzeResults prs repos s e).closedPRs
      ∧ (filteredData RF [] ALL_SIZES (analyzeResults prs repos s e)).uniqueContributors =
        (analyzeResults prs repos s e).uniqueContributors
      ∧ (filteredData RF [] ALL_SIZES (analyzeResults prs repos s e)).prs =
        (analyzeResults prs repos s e).prs
      ∧ (filteredData RF [] ALL_SIZES (analyzeResults prs repos s e)).sizeDistribution =
        (analyzeResults prs repos s e).sizeDistribution
      ∧ (filteredData RF [] ALL_SIZES (analyzeResults prs repos s e)).languageDistribution =
        (analyzeResults prs repos s e).languageDistribution
      ∧ ((filteredData RF [] ALL_SIZES (analyzeResults prs repos s e)).contributors).map coreC =
        ((analyzeResults prs repos s e).contributors).map coreC
      ∧ (filteredData RF [] ALL_SIZES (analyzeResults prs repos s e)).reviewers =
        (analyzeResults prs repos s e).reviewers
      ∧ (filteredData RF [] ALL_SIZES (analyzeResults prs repos s e)).totalReviews =
        (analyzeResults prs repos s e).totalReviews
      ∧ (filteredData RF [] ALL_SIZES (analyzeResults prs repos s e)).avgComplexity =
        (analyzeResults prs repos s e).avgComplexity) := by
  have hff := fullyFiltered_annotate_id RF CF SF prs repos s e
  constructor
  · refine ⟨?_, ?_, ?_, ?_, ?_, ?_, ?_, ?_, ?_, ?_, ?_, ?_⟩
    · show (fullyFilteredPRs RF CF SF (analyzeResults prs repos s e).prs).length =
        ((fullyFilteredPRs RF CF SF (analyzeResults prs repos s e).prs).map
          annotateComplexity).length
      rw [hff]
    · show ((fullyFilteredPRs RF CF SF (analyzeResults prs repos s e).prs).filter
          (fun pr => pr.state == .merged)).length =
        (((fullyFilteredPRs RF CF SF (analyzeResults prs repos s e).prs).map
          annotateComplexity).filter (fun pr => pr.state == .merged)).length
      rw [hff]
    · show ((fullyFilteredPRs RF CF SF (analyzeResults prs repos s e).prs).filter
          (fun pr => pr.state == .opened)).length =
        (((fullyFilteredPRs RF CF SF (analyzeResults prs repos s e).prs).map
          annotateComplexity).filter (fun pr => pr.state == .opened)).length
      rw [hff]
    · show ((fullyFilteredPRs RF CF SF (analyzeResults prs repos s e).prs).filter
          (fun pr => pr.state == .closed)).length =
        (((fullyFilteredPRs RF CF SF (analyzeResults prs repos s e).prs).map
          annotateComplexity).filter (fun pr => pr.state == .closed)).length
      rw [hff]
    · show (fdContributors (fullyFilteredPRs RF CF SF
          (analyzeResults prs repos s e).prs)).length =
        (aggregateByContributor ((fullyFilteredPRs RF CF SF
          (analyzeResults prs repos s e).prs).map annotateComplexity)).length
      rw [hff]
      have h9 := congrArg List.length
        (fdContributors_coreC (fullyFilteredPRs RF CF SF (analyzeResults prs repos s e).prs))
      simpa using h9
    · show fullyFilteredPRs RF CF SF (analyzeResults prs repos s e).prs =
        (fullyFilteredPRs RF CF SF (analyzeResults prs repos s e).prs).map
          annotateComplexity
      rw [hff]
    · show (fullyFilteredPRs RF CF SF (analyzeResults prs repos s e).prs).foldl
          (fun d pr => d.bump pr.size) ⟨0, 0, 0, 0, 0, 0⟩ =
        aggregateSizeDistribution ((fullyFilteredPRs RF CF SF
          (analyzeResults prs repos s e).prs).map annotateComplexity)
      rw [hff]
      rfl
    · show fdLanguageDistribution (fullyFilteredPRs RF CF SF
          (analyzeResults prs repos s e).prs) =
        aggregateLanguageDistribution ((fullyFilteredPRs RF CF SF
          (analyzeResults prs repos s e).prs).map annotateComplexity)
      rw [hff, fdLanguageDistribution_eq]
    · show (fdContributors (fullyFilteredPRs RF CF SF
          (analyzeResults prs repos s e).prs)).map coreC =
        (aggregateByContributor ((fullyFilteredPRs RF CF SF
          (analyzeResults prs repos s e).prs).map annotateComplexity)).map coreC
      rw [hff]
      exact fdContributors_coreC _
    · show fdReviewers (fullyFilteredPRs RF CF SF (analyzeResults prs repos s e).prs) =
        aggregateByReviewer ((fullyFilteredPRs RF CF SF
          (analyzeResults prs repos s e).prs).map annotateComplexity)
      rw [hff, fdReviewers_eq]
    · show (fullyFilteredPRs RF CF SF (analyzeResults prs repos s e).prs).foldl
          (fun acc pr => acc + pr.reviewCount.getD 0) 0 =
        ((fullyFilteredPRs RF CF SF (analyzeResults prs repos s e).prs).map
          annotateComplexity).foldl (fun acc pr => acc + pr.reviewCount.getD 0) 0
      rw [hff]
    · show (if 0 < (fullyFilteredPRs RF CF SF (analyzeResults prs repos s e).prs).length then
          round ((((fullyFilteredPRs RF CF SF (analyzeResults prs repos s e).prs).foldl
            (fun acc pr => acc + pr.complexity.getD 0) 0 : Int) : ℚ) /
            ((fullyFilteredPRs RF CF SF (analyzeResults prs repos s e).prs).length : ℚ))
        else 0) =
        (if 0 < ((fullyFilteredPRs RF CF SF (analyzeResults prs repos s e).prs).map
            annotateComplexity).length then
          round (((((fullyFilteredPRs RF CF SF (analyzeResults prs repos s e).prs).map
            annotateComplexity).foldl (fun acc pr => acc + pr.complexity.getD 0) 0 : Int) : ℚ) /
            (((fullyFilteredPRs RF CF SF (analyzeResults prs repos s e).prs).map
              annotateComplexity).length : ℚ))
        else 0)
      rw [hff]
  · intro hall
    have hap := fullyFiltered_allpass RF (analyzeResults prs repos s e).prs hall
    have hffa : ((analyzeResults prs repos s e).prs).map annotateComplexity =
        (analyzeResults prs repos s e).prs :=
      map_annotate_id _ (analyzeResults_prs_isSome prs repos s e)
    refine ⟨?_, ?_, ?_, ?_, ?_, ?_, ?_, ?_, ?_, ?_, ?_, ?_⟩
    · show (fullyFilteredPRs RF [] ALL_SIZES (analyzeResults prs repos s e).prs).length = _
      rw [hap]
      rfl
    · show ((fullyFilteredPRs RF [] ALL_SIZES (analyzeResults prs repos s e).prs).filter
          (fun pr => pr.state == .merged)).length = _
      rw [hap]
      rfl
    · show ((fullyFilteredPRs RF [] ALL_SIZES (analyzeResults prs repos s e).prs).filter
          (fun pr => pr.state == .opened)).length = _
      rw [hap]
      rfl
    · show ((fullyFilteredPRs RF [] ALL_SIZES (analyzeResults prs repos s e).prs).filter
          (fun pr => pr.state == .closed)).length = _
      rw [hap]
      rfl
    · show (fdContributors (fullyFilteredPRs RF [] ALL_SIZES
          (analyzeResults prs repos s e).prs)).length = _
      rw [hap]
      have h9 := congrArg List.length (fdContributors_coreC (analyzeResults prs repos s e).prs)
      simpa using h9
    · show fullyFilteredPRs RF [] ALL_SIZES (analyzeResults prs repos s e).prs = _
      rw [hap]
    · show (fullyFilteredPRs RF [] ALL_SIZES (analyzeResults prs repos s e).prs).foldl
          (fun (d : SizeDist) pr => d.bump pr.size) (⟨0, 0, 0, 0, 0, 0⟩ : SizeDist) = _
      rw [hap]
      rfl
    · show fdLanguageDistribution (fullyFilteredPRs RF [] ALL_SIZES
          (analyzeResults prs repos s e).prs) = _
      rw [hap, fdLanguageDistribution_eq]
      rfl
    · show (fdContributors (fullyFilteredPRs RF [] ALL_SIZES
          (analyzeResults prs repos s e).prs)).map coreC = _
      rw [hap]
      exact fdContributors_coreC _
    · show fdReviewers (fullyFilteredPRs RF [] ALL_SIZES
          (analyzeResults prs repos s e).prs) = _
      rw [hap, fdReviewers_eq]
      rfl
    · show (fullyFilteredPRs RF [] ALL_SIZES (analyzeResults prs repos s e).prs).foldl
          (fun acc pr => acc + pr.reviewCount.getD 0) 0 = _
      rw [hap]
      rfl
    · show (if 0 < (fullyFilteredPRs RF [] ALL_SIZES
            (analyzeResults prs repos s e).prs).length then
          round ((((fullyFilteredPRs RF [] ALL_SIZES
            (analyzeResults prs repos s e).prs).foldl
            (fun acc pr => acc + pr.complexity.getD 0) 0 : Int) : ℚ) /
            ((fullyFilteredPRs RF [] ALL_SIZES
              (analyzeResults prs repos s e).prs).length : ℚ))
        else 0) = _
      rw [hap]
      rfl

/-- C1 counterexample: a single zero-size PR created 2025-07-01,
analyzed over the daily window 2025-07-01 … 2025-07-02, refiltered with
an all-pass triple (its repository selected, no contributor filter, all
six sizes).  The recomputed timeline counts the PR in BOTH daily buckets
(`t.date.startsWith(prDate.substring(0, 7))` matches every bucket of the
creation month), so the refiltered result is not observationally
identical to the original. -/
theorem C1_counterexample :
    ((analyzeResults [zeroPR] ["octo/repo"] ⟨2025, 7, 1⟩ ⟨2025, 7, 2⟩).prs.all
      (fun pr => (["octo/repo"] : List String).contains pr.repo)) = true
    ∧ ((analyzeResults [zeroPR] ["octo/repo"] ⟨2025, 7, 1⟩ ⟨2025, 7, 2⟩).timeline.map
        (fun t => (t.date, t.count))) = [("2025-07-01", 1), ("2025-07-02", 0)]
    ∧ ((filteredData ["octo/repo"] [] ALL_SIZES
        (analyzeResults [zeroPR] ["octo/repo"] ⟨2025, 7, 1⟩ ⟨2025, 7, 2⟩)).timeline.map
        (fun t => (t.date, t.count))) = [("2025-07-01", 1), ("2025-07-02", 1)]
    ∧ filteredData ["octo/repo"] [] ALL_SIZES
        (analyzeResults [zeroPR] ["octo/repo"] ⟨2025, 7, 1⟩ ⟨2025, 7, 2⟩) ≠
      analyzeResults [zeroPR] ["octo/repo"] ⟨2025, 7, 1⟩ ⟨2025, 7, 2⟩ := by
  have hr : ((analyzeResults [zeroPR] ["octo/repo"] ⟨2025, 7, 1⟩ ⟨2025, 7, 2⟩).timeline.map
      (fun t => (t.date, t.count))) = [("2025-07-01", 1), ("2025-07-02", 0)] := by decide
  have hfd : ((filteredData ["octo/repo"] [] ALL_SIZES
      (analyzeResults [zeroPR] ["octo/repo"] ⟨2025, 7, 1⟩ ⟨2025, 7, 2⟩)).timeline.map
      (fun t => (t.date, t.count))) = [("2025-07-01", 1), ("2025-07-02", 1)] := by decide
  refine ⟨by decide, hr, hfd, ?_⟩
  intro h
  have h2 := congrArg
    (fun x : AnalysisResult => x.timeline.map (fun t => (t.date, t.count))) h
  simp only at h2
  rw [hfd, hr] at h2
  exact absurd h2 (by decide)

/-- C1 witness: the all-pass agreement applied to the concrete one-PR
result (its hypothesis — every record's repository is in the subset —
holds by computation). -/
theorem C1_filterEngine_witness :
    (filteredData ["octo/repo"] [] ALL_SIZES
      (analyzeResults [zeroPR] ["octo/repo"] ⟨2025, 7, 1⟩ ⟨2025, 7, 2⟩)).totalPRs =
      (analyzeResults [zeroPR] ["octo/repo"] ⟨2025, 7, 1⟩ ⟨2025, 7, 2⟩).totalPRs :=
  ((C1_filterEngine ["octo/repo"] [] ALL_SIZES [zeroPR] ["octo/repo"]
      ⟨2025, 7, 1⟩ ⟨2025, 7, 2⟩).2 (by decide)).1
